import Mathlib

/-!
Verification of the bulk JSON import/export pipeline of the kan board
application (`packages/api/src/routers/json-import.ts`).

The development shallowly embeds the pipeline: JSON values are an inductive
type, the preprocessor and the Zod validation are pure functions on them, the
relational store is an explicit record of row lists threaded through the
bulk import, and the repository layer's fallibility (a failing create) is
an oracle parameter.  Board lookup and workspace authorization are outside the
core (spec §1, §6) and are not modelled; the import operates on a resolved
board id.
-/

namespace Kan

/-- JavaScript `toLowerCase`, modelled characterwise over the string's
characters (kept kernel-reducible by working on `String.data`). -/
def jsLower (s : String) : String := String.mk (s.data.map Char.toLower)

/-- JavaScript `trim`: strip leading and trailing whitespace. -/
def jsTrim (s : String) : String :=
  String.mk ((((s.data.dropWhile Char.isWhitespace).reverse).dropWhile Char.isWhitespace).reverse)

/-- JavaScript `substring(0, n)`. -/
def jsTake (s : String) (n : Nat) : String := String.mk (s.data.take n)

/-- JSON values as produced by a successful `JSON.parse`. -/
inductive Json where
  | null : Json
  | bool (b : Bool) : Json
  | num (n : Int) : Json
  | str (s : String) : Json
  | arr (elems : List Json) : Json
  | obj (fields : List (String × Json)) : Json

/-- Property access `j.key`: defined only on objects, `none` otherwise
(mirrors JavaScript's `undefined` for missing properties; arrays have no
string-keyed properties in the payloads considered). -/
def Json.lookup : Json → String → Option Json
  | Json.obj fields, key => List.lookup key fields
  | _, _ => none

/-- The JavaScript test `x != null && typeof x === 'object'` (true for plain
objects and for arrays). -/
def Json.isObjectLike : Json → Bool
  | Json.obj _ => true
  | Json.arr _ => true
  | _ => false

/-- Whether a JSON value is `null`. -/
def Json.isNull : Json → Bool
  | Json.null => true
  | _ => false

/-- The JavaScript test `j.key && typeof j.key === 'string'`: the property is
present, is a string, and is truthy (non-empty). -/
def jsonStringField (j : Json) (key : String) : Option String :=
  match j.lookup key with
  | some (Json.str s) => if s = "" then none else some s
  | _ => none

/-- The JavaScript expression `j.key ?? ""` used for card title/description:
missing or null becomes the empty string, any other value is kept as is. -/
def fieldOrEmptyString (j : Json) (key : String) : Json :=
  match j.lookup key with
  | none => Json.str ""
  | some Json.null => Json.str ""
  | some v => v

/-! ## Preprocessor (json-import.ts lines 99–203)

Runs before strict validation; drops malformed nested entries, fails fast on
structurally unusable top-level objects.  Failures are `BAD_REQUEST` errors in
the source; here the error carries the message only. -/

/-- Filter for checklist items: `item != null && typeof item === 'object' &&
item.title && typeof item.title === 'string'`. -/
def jsValidItem (item : Json) : Bool :=
  item.isObjectLike && (jsonStringField item "title").isSome

/-- Map for surviving checklist items: keeps the title, and
`completed: item.completed ?? false`. -/
def preprocessItem (item : Json) : Json :=
  let completed :=
    match item.lookup "completed" with
    | none => Json.bool false
    | some Json.null => Json.bool false
    | some v => v
  Json.obj [("title", (item.lookup "title").getD (Json.str "")), ("completed", completed)]

/-- Filter for checklists: `cl != null && typeof cl === 'object' && cl.name &&
typeof cl.name === 'string'`. -/
def jsValidChecklist (cl : Json) : Bool :=
  cl.isObjectLike && (jsonStringField cl "name").isSome

/-- Map for surviving checklists: keeps the name and the filtered items
(non-array `items` becomes `[]`). -/
def preprocessChecklist (cl : Json) : Json :=
  let items :=
    match cl.lookup "items" with
    | some (Json.arr xs) => (xs.filter jsValidItem).map preprocessItem
    | _ => []
  Json.obj [("name", (cl.lookup "name").getD (Json.str "")), ("items", Json.arr items)]

/-- `preprocessCards` body for one card: a non-object card is fatal
(`BAD_REQUEST`); otherwise title/description default to `""`, a non-array
`labels` becomes `[]` (null entries dropped), malformed checklists dropped. -/
def preprocessCard (idx : Nat) (card : Json) : Except String Json :=
  if !card.isObjectLike then
    Except.error ("Card at index " ++ toString idx ++ " is invalid")
  else
    let checklists :=
      match card.lookup "checklists" with
      | some (Json.arr xs) => (xs.filter jsValidChecklist).map preprocessChecklist
      | _ => []
    let labels :=
      match card.lookup "labels" with
      | some (Json.arr xs) => xs.filter (fun l => !l.isNull)
      | _ => []
    Except.ok (Json.obj
      [("title", fieldOrEmptyString card "title"),
       ("description", fieldOrEmptyString card "description"),
       ("labels", Json.arr labels),
       ("checklists", Json.arr checklists)])

/-- Preprocess a card array, failing on the first invalid card. -/
def preprocessCards (cards : List Json) : Except String (List Json) :=
  (cards.enum).mapM (fun p => preprocessCard p.1 p.2)

/-- Preprocess one entry of an array-of-lists payload: must be an object with
a truthy string `listName` (fatal otherwise); the name is trimmed and a
non-array `cards` becomes `[]`. -/
def preprocessList (idx : Nat) (l : Json) : Except String Json :=
  if !l.isObjectLike then
    Except.error ("List at index " ++ toString idx ++ " is invalid")
  else
    match jsonStringField l "listName" with
    | none => Except.error ("List at index " ++ toString idx ++ " has invalid or missing listName")
    | some name =>
      let rawCards :=
        match l.lookup "cards" with
        | some (Json.arr xs) => xs
        | _ => []
      match preprocessCards rawCards with
      | Except.error e => Except.error e
      | Except.ok cs => Except.ok (Json.obj [("listName", Json.str (jsTrim name)), ("cards", Json.arr cs)])

/-- The whole preprocessing stage: an array is preprocessed per entry; a
non-array object whose `cards` property is an array gets its cards
preprocessed (its `listName` is passed through untrimmed, omitted when
absent); anything else is left unchanged for the validator to reject. -/
def preprocess : Json → Except String Json
  | Json.arr ls => do
      let ls2 ← (ls.enum).mapM (fun p => preprocessList p.1 p.2)
      return Json.arr ls2
  | Json.obj fields =>
      match List.lookup "cards" fields with
      | some (Json.arr cs) =>
        match preprocessCards cs with
        | Except.error e => Except.error e
        | Except.ok cs2 =>
          let listNameField :=
            match List.lookup "listName" fields with
            | some v => [("listName", v)]
            | none => []
          Except.ok (Json.obj (listNameField ++ [("cards", Json.arr cs2)]))
      | some _ => Except.ok (Json.obj fields)
      | none => Except.ok (Json.obj fields)
  | j => Except.ok j

/-! ## Validated payload shape (the Zod schemas, json-import.ts lines 20–46) -/

/-- A checklist item after validation (`ChecklistItemSchema`). -/
structure ChecklistItemData where
  title : String
  completed : Bool
deriving Repr, DecidableEq

/-- A checklist after validation (`ChecklistSchema`). -/
structure ChecklistData where
  name : String
  items : List ChecklistItemData
deriving Repr, DecidableEq

/-- A card after validation (`CardSchema`). -/
structure CardData where
  title : String
  description : String
  labels : List String
  checklists : List ChecklistData
deriving Repr, DecidableEq

/-- A list after validation (`ListSchema`). -/
structure ListData where
  listName : String
  cards : List CardData
deriving Repr, DecidableEq

/-- `ChecklistItemSchema`: title a string of 1–500 characters, completed a
boolean defaulting to `false` when absent. -/
def validateItem (j : Json) : Option ChecklistItemData :=
  match j with
  | Json.obj _ =>
    match j.lookup "title" with
    | some (Json.str t) =>
      if 1 ≤ t.length ∧ t.length ≤ 500 then
        match j.lookup "completed" with
        | none => some ⟨t, false⟩
        | some (Json.bool b) => some ⟨t, b⟩
        | some _ => none
      else none
    | _ => none
  | _ => none

/-- `ChecklistSchema`: name a string of 1–255 characters, items a required
array of at most 50 valid items. -/
def validateChecklist (j : Json) : Option ChecklistData :=
  match j with
  | Json.obj _ =>
    match j.lookup "name" with
    | some (Json.str nm) =>
      if 1 ≤ nm.length ∧ nm.length ≤ 255 then
        match j.lookup "items" with
        | some (Json.arr xs) =>
          if xs.length ≤ 50 then
            match xs.mapM validateItem with
            | some items => some ⟨nm, items⟩
            | none => none
          else none
        | _ => none
      else none
    | _ => none
  | _ => none

/-- A label entry: `z.string().max(50)`. -/
def validateLabel (j : Json) : Option String :=
  match j with
  | Json.str s => if s.length ≤ 50 then some s else none
  | _ => none

/-- `CardSchema`: title 1–255 chars required; description at most 10000 chars,
optional with default `""`; labels at most 20 strings of at most 50 chars,
optional with default `[]`; checklists at most 10, optional default `[]`. -/
def validateCard (j : Json) : Option CardData :=
  match j with
  | Json.obj _ =>
    match j.lookup "title" with
    | some (Json.str t) =>
      if 1 ≤ t.length ∧ t.length ≤ 255 then
        match
          (match j.lookup "description" with
           | none => some ""
           | some (Json.str d) => if d.length ≤ 10000 then some d else none
           | some _ => none) with
        | none => none
        | some d =>
          match
            (match j.lookup "labels" with
             | none => some []
             | some (Json.arr xs) =>
               if xs.length ≤ 20 then xs.mapM validateLabel else none
             | some _ => none) with
          | none => none
          | some ls =>
            match
              (match j.lookup "checklists" with
               | none => some []
               | some (Json.arr xs) =>
                 if xs.length ≤ 10 then xs.mapM validateChecklist else none
               | some _ => none) with
            | none => none
            | some cls => some ⟨t, d, ls, cls⟩
      else none
    | _ => none
  | _ => none

/-- `ListSchema`: listName 1–255 chars, cards a required array of 0–500 valid
cards. -/
def validateList (j : Json) : Option ListData :=
  match j with
  | Json.obj _ =>
    match j.lookup "listName" with
    | some (Json.str nm) =>
      if 1 ≤ nm.length ∧ nm.length ≤ 255 then
        match j.lookup "cards" with
        | some (Json.arr xs) =>
          if xs.length ≤ 500 then
            match xs.mapM validateCard with
            | some cs => some ⟨nm, cs⟩
            | none => none
          else none
        | _ => none
      else none
    | _ => none
  | _ => none

/-- `ImportJsonSchema = z.union([ListSchema, z.array(ListSchema).min(1).max(50)])`,
followed by the normalization `Array.isArray(importData) ? importData :
[importData]`.  The result is the normalized array of lists. -/
def validateTop (j : Json) : Option (List ListData) :=
  match validateList j with
  | some l => some [l]
  | none =>
    match j with
    | Json.arr xs =>
      if 1 ≤ xs.length ∧ xs.length ≤ 50 then
        match xs.mapM validateList with
        | some ls => some ls
        | none => none
      else none
    | _ => none

/-! ## Errors and the parse/preprocess/validate front end -/

/-- The TRPC error kinds raised by the pipeline. -/
inductive ImpErr where
  | badRequest (msg : String)
  | internal (msg : String)
deriving Repr, DecidableEq

/-- The message carried by an error (`error.message`). -/
def ImpErr.message : ImpErr → String
  | ImpErr.badRequest m => m
  | ImpErr.internal m => m

/-- The aggregated validation-failure message head (json-import.ts line 213);
the per-field detail is not modelled. -/
def invalidStructureMsg : String := "Invalid data structure"

/-- The stages of `importCards` that run before any write: JSON parsing
(`none` stands for a string `JSON.parse` throws on), preprocessing, and schema
validation.  Every failure is a `BAD_REQUEST`. -/
def parseAndValidate (parsed : Option Json) : Except ImpErr (List ListData) :=
  match parsed with
  | none => Except.error (ImpErr.badRequest "Invalid JSON format")
  | some j =>
    match preprocess j with
    | Except.error m => Except.error (ImpErr.badRequest m)
    | Except.ok j2 =>
      match validateTop j2 with
      | none => Except.error (ImpErr.badRequest invalidStructureMsg)
      | some ls => Except.ok ls

/-! ## Relational store

One record of row lists; repository creates append a row and hand back the
fresh id.  `nextId` supplies both internal ids and the public identifiers
(`generateUID` values are only ever compared for equality, so a fresh natural
number is an adequate stand-in). -/

/-- A row of the `list` table (the columns this subsystem touches). -/
structure ListRow where
  id : Nat
  name : String
  boardId : Nat
  index : Nat
  createdBy : String
  importId : Option Nat
  deleted : Bool
deriving Repr, DecidableEq

/-- A row of the `label` table. -/
structure LabelRow where
  id : Nat
  name : String
  colourCode : String
  boardId : Nat
  createdBy : String
  importId : Option Nat
  deleted : Bool
deriving Repr, DecidableEq

/-- A row of the `card` table. -/
structure CardRow where
  id : Nat
  publicId : Nat
  title : String
  description : String
  listId : Nat
  index : Nat
  createdBy : String
  importId : Option Nat
  deleted : Bool
deriving Repr, DecidableEq

/-- A row of the card–label association table (`cardsToLabels`). -/
structure CardLabelRow where
  cardId : Nat
  labelId : Nat
deriving Repr, DecidableEq

/-- A row of the `checklist` table. -/
structure ChecklistRow where
  id : Nat
  cardId : Nat
  name : String
  index : Nat
  createdBy : String
  deleted : Bool
deriving Repr, DecidableEq

/-- A row of the `checklistItem` table. -/
structure ChecklistItemRow where
  id : Nat
  checklistId : Nat
  title : String
  completed : Bool
  index : Nat
  createdBy : String
  deleted : Bool
deriving Repr, DecidableEq

/-- A row of the card activity table. -/
structure ActivityRow where
  cardId : Nat
  activityType : String
  createdBy : String
deriving Repr, DecidableEq

/-- A row of the import ledger (`ImportBatch`). -/
structure ImportRow where
  id : Nat
  source : String
  createdBy : String
  status : String
deriving Repr, DecidableEq

/-- The store state. -/
structure DB where
  lists : List ListRow
  labels : List LabelRow
  cards : List CardRow
  cardLabels : List CardLabelRow
  checklists : List ChecklistRow
  checklistItems : List ChecklistItemRow
  activities : List ActivityRow
  imports : List ImportRow
  nextId : Nat
deriving Repr, DecidableEq

/-- An empty store. -/
def DB.empty : DB := ⟨[], [], [], [], [], [], [], [], 1⟩

/-- Modelled from the spec: `importRepo.create` (repository sources are not in
scope) inserts the provenance record with source `"json"` in its initial
`pending` status (§3: status ∈ pending/success/failed, created at the start of
the call). -/
def DB.insertImport (db : DB) (createdBy : String) : Nat × DB :=
  (db.nextId,
   { db with imports := db.imports ++ [⟨db.nextId, "json", createdBy, "pending"⟩],
             nextId := db.nextId + 1 })

/-- `importRepo.update` with a status, keyed by import id. -/
def DB.setImportStatus (db : DB) (importId : Nat) (status : String) : DB :=
  { db with imports := db.imports.map (fun r => if r.id == importId then { r with status := status } else r) }

/-- Modelled from the spec: `listRepo.create` (repository sources are not in
scope) appends a list row whose ordering index is the number of non-deleted
lists currently on the board (§3: lists carry an ordering index; §4.5 orders
them by it). -/
def DB.insertList (db : DB) (name : String) (boardId : Nat) (createdBy : String) (importId : Nat) : Nat × DB :=
  let idx := (db.lists.filter (fun l => l.boardId == boardId && !l.deleted)).length
  (db.nextId,
   { db with lists := db.lists ++ [⟨db.nextId, name, boardId, idx, createdBy, some importId, false⟩],
             nextId := db.nextId + 1 })

/-- `labelRepo.bulkCreate`, one row: name, cyclically assigned colour code,
board, creator and import tag. -/
def DB.insertLabel (db : DB) (name colour : String) (boardId : Nat) (createdBy : String) (importId : Nat) : Nat × DB :=
  (db.nextId,
   { db with labels := db.labels ++ [⟨db.nextId, name, colour, boardId, createdBy, some importId, false⟩],
             nextId := db.nextId + 1 })

/-- Modelled from the spec: `checklistRepo.create` (repository sources are not
in scope) appends a checklist row with index = number of checklists already on
the card (§3: ordered items; §4.5 orders checklists by index). -/
def DB.insertChecklist (db : DB) (name : String) (cardId : Nat) (createdBy : String) : Nat × DB :=
  let idx := (db.checklists.filter (fun c => c.cardId == cardId && !c.deleted)).length
  (db.nextId,
   { db with checklists := db.checklists ++ [⟨db.nextId, cardId, name, idx, createdBy, false⟩],
             nextId := db.nextId + 1 })

/-- Modelled from the spec: `checklistRepo.createItem` (repository sources are
not in scope) appends an item row with index = item count on the checklist.
The call site passes only title, checklist id and creator, so the `completed`
column takes the schema default `false` (§4.1: completed defaults to false). -/
def DB.insertChecklistItem (db : DB) (title : String) (checklistId : Nat) (createdBy : String) : Nat × DB :=
  let idx := (db.checklistItems.filter (fun i => i.checklistId == checklistId && !i.deleted)).length
  (db.nextId,
   { db with checklistItems := db.checklistItems ++ [⟨db.nextId, checklistId, title, false, idx, createdBy, false⟩],
             nextId := db.nextId + 1 })

/-! ## Reconciliation: the global label pass (json-import.ts lines 298–349) -/

/-- `Set.add` on a list kept in insertion order (JavaScript `Set` iteration
order). -/
def setAdd (s : List String) (x : String) : List String :=
  if s.contains x then s else s ++ [x]

/-- Inner loop of label collection over one card's label names: non-empty
trimmed names are added (exact-string deduplication, as a JS `Set`). -/
def addCardLabels (acc : List String) (labels : List String) : List String :=
  match labels with
  | [] => acc
  | l :: rest => addCardLabels (if jsTrim l == "" then acc else setAdd acc (jsTrim l)) rest

/-- Label collection over one list's cards. -/
def addListLabels (acc : List String) (cards : List CardData) : List String :=
  match cards with
  | [] => acc
  | c :: rest => addListLabels (addCardLabels acc c.labels) rest

/-- Label collection over all lists. -/
def collectAux (acc : List String) (ls : List ListData) : List String :=
  match ls with
  | [] => acc
  | l :: rest => collectAux (addListLabels acc l.cards) rest

/-- `allLabelNames`: the union (in first-seen order) of every non-empty
trimmed label name referenced anywhere in the payload. -/
def collectLabelNames (ls : List ListData) : List String :=
  collectAux [] ls

/-- A JS `Map<string, number>` as an association list; `set` replaces in
place, keeping the original insertion position. -/
def mapSet (m : List (String × Nat)) (k : String) (v : Nat) : List (String × Nat) :=
  match m with
  | [] => [(k, v)]
  | (k2, v2) :: rest => if k2 == k then (k, v) :: rest else (k2, v2) :: mapSet rest k v

/-- `Map.get`. -/
def mapGet (m : List (String × Nat)) (k : String) : Option Nat :=
  match m with
  | [] => none
  | (k2, v) :: rest => if k2 == k then some v else mapGet rest k

/-- `Map.has`. -/
def mapHas (m : List (String × Nat)) (k : String) : Bool :=
  (mapGet m k).isSome

/-- The label map seeded from the board's existing labels:
`labelMap.set(label.name.toLowerCase(), label.id)` per row. -/
def buildLabelMap (rows : List LabelRow) : List (String × Nat) :=
  rows.foldl (fun m r => mapSet m (jsLower r.name) r.id) []

/-- `labelsToCreate`: the collected names whose lowercase form is not yet in
the label map (the map is not updated while this list is built). -/
def labelsToCreate (names : List String) (m : List (String × Nat)) : List String :=
  names.filter (fun nm => !mapHas m (jsLower nm))

/-- Modelled from the spec: the fixed finite colour palette from the shared
constants package (not in scope); §4.3 only requires cyclic assignment, the
particular codes are irrelevant here. -/
def colours : List String :=
  ["#3b82f6", "#ef4444", "#10b981", "#f59e0b", "#8b5cf6", "#ec4899"]

/-- `colours[(existing label count + creation offset) % colours.length]?.code
?? "#0d9488"`. -/
def colourFor (existingCount i : Nat) : String :=
  (colours.get? ((existingCount + i) % colours.length)).getD "#0d9488"

/-- `labelRepo.bulkCreate` over `labelsToCreate` followed by
`labelMap.set(name.toLowerCase(), created.id)` in input order. -/
def createLabelsAux (names : List String) (i existingCount boardId : Nat) (userId : String)
    (importId : Nat) (m : List (String × Nat)) (db : DB) : List (String × Nat) × DB :=
  match names with
  | [] => (m, db)
  | nm :: rest =>
    let p := db.insertLabel nm (colourFor existingCount i) boardId userId importId
    createLabelsAux rest (i + 1) existingCount boardId userId importId (mapSet m (jsLower nm) p.1) p.2

/-! ## Failure oracle

A repository create in the source can come back without a row (the
`!newList?.id` / `createdCards.length === 0` / `!checklist?.id` /
`!createdItem` checks).  The oracle decides, per call site and position,
whether such a create succeeds; `Oracle.allOk` is the store that never
fails. -/

/-- Success/failure decisions for the fallible creates, indexed by position
(list index; list, card index; list, card, checklist index; list, card,
checklist, item index). -/
structure Oracle where
  importCreateOk : Bool
  listCreateOk : Nat → Bool
  cardBulkOk : Nat → Bool
  checklistOk : Nat → Nat → Nat → Bool
  itemOk : Nat → Nat → Nat → Nat → Bool

/-- The oracle under which every create succeeds. -/
def Oracle.allOk : Oracle :=
  ⟨true, fun _ => true, fun _ => true, fun _ _ _ => true, fun _ _ _ _ => true⟩

/-! ## The per-list write loop (json-import.ts lines 352–558) -/

/-- The import-call context fixed before the per-list loop. -/
structure ImportCtx where
  boardId : Nat
  userId : String
  importId : Nat
  labelMap : List (String × Nat)

/-- The mutable state of the per-list loop: the store, the (growing)
`existingLists` cache of `(id, name)` pairs, the warning collector, and
`allCreatedCards.length`. -/
structure LoopState where
  db : DB
  existingLists : List (Nat × String)
  warnings : List String
  cardsCreated : Nat

/-- `existingLists.find(list => list.name && typeof list.name === 'string' &&
list.name.toLowerCase() === listData.listName.toLowerCase())`. -/
def findExistingList (ex : List (Nat × String)) (name : String) : Option (Nat × String) :=
  ex.find? (fun p => p.2 != "" && jsLower p.2 == jsLower name)

/-- Find-or-create of the target list (json-import.ts lines 370–392); on a
miss a new list tagged with the import id is created and pushed onto the
cache, and a create that returns no row raises. -/
def resolveList (o : Oracle) (li : Nat) (ctx : ImportCtx) (name : String) (s : LoopState) :
    Except ImpErr (Nat × LoopState) :=
  match findExistingList s.existingLists name with
  | some p => Except.ok (p.1, s)
  | none =>
    if o.listCreateOk li then
      let p := s.db.insertList name ctx.boardId ctx.userId ctx.importId
      Except.ok (p.1, { s with db := p.2, existingLists := s.existingLists ++ [(p.1, name)] })
    else
      Except.error (ImpErr.internal ("Failed to create list \"" ++ name ++ "\""))

/-- `cardRepo.bulkCreate` of `cardsToInsert`: title and description truncated
to their bounds, index = position in this payload list's card array, tagged
with the import id.  Returns the created ids in input order. -/
def insertCardsAux (cards : List CardData) (i listId : Nat) (userId : String) (importId : Nat)
    (db : DB) : List Nat × DB :=
  match cards with
  | [] => ([], db)
  | c :: rest =>
    let row : CardRow :=
      ⟨db.nextId, db.nextId, jsTake c.title 255, jsTake c.description 10000, listId, i, userId,
       some importId, false⟩
    let db2 := { db with cards := db.cards ++ [row], nextId := db.nextId + 1 }
    let p := insertCardsAux rest (i + 1) listId userId importId db2
    (db.nextId :: p.1, p.2)

/-- The title-truncation warning string (json-import.ts line 414). -/
def titleTruncWarning (listName : String) (i : Nat) (c : CardData) : String :=
  "List \"" ++ listName ++ "\", Card " ++ toString (i + 1) ++ " \"" ++ jsTake c.title 50 ++
    "...\": Title truncated from " ++ toString c.title.length ++ " to 255 characters"

/-- The description-truncation warning string (json-import.ts line 419). -/
def descTruncWarning (listName : String) (i : Nat) (c : CardData) : String :=
  "List \"" ++ listName ++ "\", Card " ++ toString (i + 1) ++ " \"" ++ c.title ++
    "\": Description truncated from " ++ toString c.description.length ++ " to 10,000 characters"

/-- The truncation warnings pushed for a list's cards before the bulk insert
(json-import.ts lines 411–422), in card order, title before description. -/
def truncWarningsFor (listName : String) (cards : List CardData) (i : Nat) : List String :=
  match cards with
  | [] => []
  | c :: rest =>
    (if 255 < c.title.length then [titleTruncWarning listName i c] else []) ++
    (if c.description ≠ "" ∧ 10000 < c.description.length then [descTruncWarning listName i c] else []) ++
    truncWarningsFor listName rest (i + 1)

/-- `uniqueLabels`: the card's label names, empty-after-trim entries dropped,
lowercased, deduplicated in first-seen order (a JS `Set`). -/
def uniqueLabelsOf (c : CardData) : List String :=
  ((c.labels.filter (fun l => jsTrim l != "")).map jsLower).foldl setAdd []

/-- The duplicate-labels warning string (json-import.ts line 472). -/
def dupLabelsWarning (listName : String) (c : CardData) : String :=
  "List \"" ++ listName ++ "\", Card \"" ++ c.title ++ "\": Duplicate labels removed"

/-- The card–label association pass (json-import.ts lines 447–475): per
created card, each unique label name is resolved through the global label map
(unresolved names are silently dropped), and a duplicate-collapse warning is
pushed when deduplication shrank the list. -/
def relsAndDupWarns (labelMap : List (String × Nat)) (listName : String)
    (pairs : List (Nat × CardData)) : List CardLabelRow × List String :=
  match pairs with
  | [] => ([], [])
  | (cid, c) :: rest =>
    let uniq := uniqueLabelsOf c
    let rels := uniq.filterMap (fun nm => (mapGet labelMap (jsLower nm)).map (fun lid => CardLabelRow.mk cid lid))
    let w := if uniq.length < c.labels.length then [dupLabelsWarning listName c] else []
    let p := relsAndDupWarns labelMap listName rest
    (rels ++ p.1, w ++ p.2)

/-- The checklist-name truncation warning string (json-import.ts line 523). -/
def checklistTruncWarning (listName cardTitle : String) (j : Nat) (cl : ChecklistData) : String :=
  "List \"" ++ listName ++ "\", Card \"" ++ cardTitle ++ "\", Checklist " ++ toString (j + 1) ++
    ": Name truncated from " ++ toString cl.name.length ++ " to 255 characters"

/-- The item-title truncation warning string (json-import.ts line 552). -/
def itemTruncWarning (listName cardTitle : String) (j k : Nat) (it : ChecklistItemData) : String :=
  "List \"" ++ listName ++ "\", Card \"" ++ cardTitle ++ "\", Checklist " ++ toString (j + 1) ++
    ", Item " ++ toString (k + 1) ++ ": Title truncated from " ++ toString it.title.length ++
    " to 500 characters"

/-- Sequential creation of one checklist's items (json-import.ts lines
529–555): a create that returns no row is logged and skipped, but the
truncation warning for the item is pushed either way.  The `completed` flag of
the payload item is not passed to the repository. -/
def processItems (o : Oracle) (li ci cj : Nat) (listName cardTitle userId : String)
    (items : List ChecklistItemData) (k clId : Nat) (db : DB) (ws : List String) :
    DB × List String :=
  match items with
  | [] => (db, ws)
  | it :: rest =>
    let db1 :=
      if o.itemOk li ci cj k then (db.insertChecklistItem (jsTake it.title 500) clId userId).2
      else db
    let ws1 :=
      if 500 < it.title.length then ws ++ [itemTruncWarning listName cardTitle cj k it] else ws
    processItems o li ci cj listName cardTitle userId rest (k + 1) clId db1 ws1

/-- Sequential creation of one card's checklists (json-import.ts lines
501–556): a checklist create that returns no row is logged and skipped
together with its items (and its name-truncation warning); otherwise the
name-truncation warning is pushed and the items are created. -/
def processChecklists (o : Oracle) (li ci : Nat) (listName cardTitle userId : String)
    (cls : List ChecklistData) (j cardId : Nat) (db : DB) (ws : List String) :
    DB × List String :=
  match cls with
  | [] => (db, ws)
  | cl :: rest =>
    if o.checklistOk li ci j then
      let p := db.insertChecklist (jsTake cl.name 255) cardId userId
      let ws1 := if 255 < cl.name.length then ws ++ [checklistTruncWarning listName cardTitle j cl] else ws
      let q := processItems o li ci j listName cardTitle userId cl.items 0 p.1 p.2 ws1
      processChecklists o li ci listName cardTitle userId rest (j + 1) cardId q.1 q.2
    else
      processChecklists o li ci listName cardTitle userId rest (j + 1) cardId db ws

/-- The checklist pass over a list's created cards (json-import.ts lines
488–557), in creation order. -/
def processCardsChecklists (o : Oracle) (li : Nat) (listName userId : String)
    (pairs : List (Nat × CardData)) (ci : Nat) (db : DB) (ws : List String) :
    DB × List String :=
  match pairs with
  | [] => (db, ws)
  | (cid, c) :: rest =>
    let p := processChecklists o li ci listName c.title userId c.checklists 0 cid db ws
    processCardsChecklists o li listName userId rest (ci + 1) p.1 p.2

/-- The write sequence of one list iteration once the target list is resolved
and the card bulk insert is known to succeed (json-import.ts lines 394–557):
truncation warnings, card bulk insert, activity records, label associations
with duplicate warnings, then the checklist pass. -/
def processListWrites (o : Oracle) (ctx : ImportCtx) (li : Nat) (e : ListData) (listId : Nat)
    (s1 : LoopState) : LoopState :=
  let ws1 := s1.warnings ++ truncWarningsFor e.listName e.cards 0
  let p := insertCardsAux e.cards 0 listId ctx.userId ctx.importId s1.db
  let db3 := { p.2 with activities := p.2.activities ++ p.1.map (fun cid => ActivityRow.mk cid "card.created" ctx.userId) }
  let pairs := p.1.zip e.cards
  let q := relsAndDupWarns ctx.labelMap e.listName pairs
  let db4 := { db3 with cardLabels := db3.cardLabels ++ q.1 }
  let r := processCardsChecklists o li e.listName ctx.userId pairs 0 db4 (ws1 ++ q.2)
  ⟨r.1, s1.existingLists, r.2, s1.cardsCreated + p.1.length⟩

/-- One iteration of the per-list loop (json-import.ts lines 352–558):
listName sanity check, empty-list skip, list resolution, then the write
sequence; a card bulk insert that comes back empty raises after the
truncation warnings were already pushed. -/
def processList (o : Oracle) (ctx : ImportCtx) (li : Nat) (e : ListData) (s : LoopState) :
    Option ImpErr × LoopState :=
  if jsTrim e.listName == "" then
    (some (ImpErr.badRequest "Invalid list data: listName is required and must be a non-empty string"), s)
  else if e.cards.isEmpty then
    (none, s)
  else
    match resolveList o li ctx e.listName s with
    | Except.error err => (some err, s)
    | Except.ok (listId, s1) =>
      if o.cardBulkOk li then
        (none, processListWrites o ctx li e listId s1)
      else
        (some (ImpErr.internal ("Failed to create cards for list \"" ++ e.listName ++ "\"")),
         { s1 with warnings := s1.warnings ++ truncWarningsFor e.listName e.cards 0 })

/-- The per-list loop; the first error aborts the remaining lists. -/
def processLists (o : Oracle) (ctx : ImportCtx) (es : List ListData) (li : Nat) (s : LoopState) :
    Option ImpErr × LoopState :=
  match es with
  | [] => (none, s)
  | e :: rest =>
    match processList o ctx li e s with
    | (some err, s2) => (some err, s2)
    | (none, s2) => processLists o ctx rest (li + 1) s2

/-- The result shape of a successful import call. -/
structure ImportOutput where
  cardsCreated : Nat
  listsProcessed : Nat
  warnings : List String
deriving Repr, DecidableEq

/-- Everything between ledger creation and the per-list loop (json-import.ts
lines 258–349): create the import record, snapshot the board's non-deleted
lists and labels, build the case-insensitive label map, and create the missing
labels with cyclic colours. -/
def importSetup (boardId : Nat) (userId : String) (ls : List ListData) (db : DB) :
    ImportCtx × LoopState :=
  let p := db.insertImport userId
  let importId := p.1
  let db1 := p.2
  let existingLists := (db1.lists.filter (fun l => l.boardId == boardId && !l.deleted)).map (fun l => (l.id, l.name))
  let existingLabels := db1.labels.filter (fun l => l.boardId == boardId && !l.deleted)
  let m0 := buildLabelMap existingLabels
  let toCreate := labelsToCreate (collectLabelNames ls) m0
  let q := createLabelsAux toCreate 0 existingLabels.length boardId userId importId m0 db1
  (⟨boardId, userId, importId, q.1⟩, ⟨q.2, existingLists, [], 0⟩)

/-- The write phase of `importCards` on an already validated payload: setup,
per-list loop, and ledger finalization.  On success the ledger is marked
`success` and the warnings are returned; any loop error first marks the ledger
`failed` and is then re-raised wrapped with added context (the catch block,
json-import.ts lines 572–592) — the accumulated warnings are dropped. -/
def importValidated (o : Oracle) (boardId : Nat) (userId : String) (ls : List ListData) (db : DB) :
    Except ImpErr ImportOutput × DB :=
  if !o.importCreateOk then
    (Except.error (ImpErr.internal "Failed to create import record"), db)
  else
    let ctxs := importSetup boardId userId ls db
    match processLists o ctxs.1 ls 0 ctxs.2 with
    | (none, s) =>
      (Except.ok ⟨s.cardsCreated, ls.length, s.warnings⟩,
       s.db.setImportStatus ctxs.1.importId "success")
    | (some e, s) =>
      (Except.error (ImpErr.internal ("Import failed: " ++ e.message)),
       s.db.setImportStatus ctxs.1.importId "failed")

/-- The import operation (`jsonImport.importCards`): parse, preprocess and
validate — failures there touch nothing — then the write phase.  Board and
workspace lookup and membership checks are external collaborators (spec §6)
and are not modelled; `boardId` is the resolved board. -/
def importCards (o : Oracle) (boardId : Nat) (userId : String) (parsed : Option Json) (db : DB) :
    Except ImpErr ImportOutput × DB :=
  match parseAndValidate parsed with
  | Except.error e => (Except.error e, db)
  | Except.ok ls => importValidated o boardId userId ls db

/-! ## Export (json-import.ts lines 595–775) -/

/-- Stable insertion into a list ordered by an index key. -/
def insertOrdered (f : α → Nat) (x : α) : List α → List α
  | [] => [x]
  | y :: ys => if f y ≤ f x then y :: insertOrdered f x ys else x :: y :: ys

/-- Stable sort by an index key, modelling the queries' `orderBy asc(index)`. -/
def sortByIdx (f : α → Nat) (l : List α) : List α :=
  l.foldl (fun acc x => insertOrdered f x acc) []

/-- The export operation (`jsonImport.exportCards`), read-only: non-deleted
lists of the board ordered by index; their non-deleted cards ordered by index;
label associations of those cards joined to the label names; non-deleted
checklists and checklist items ordered by index; reassembled into the same
nested shape the importer accepts (the final `JSON.stringify` is not
modelled). -/
def exportCards (boardId : Nat) (db : DB) : List ListData :=
  let lists := sortByIdx (fun l => l.index) (db.lists.filter (fun l => l.boardId == boardId && !l.deleted))
  let listIds := lists.map (fun l => l.id)
  let allCards := sortByIdx (fun c => c.index) (db.cards.filter (fun c => listIds.contains c.listId && !c.deleted))
  let cardIds := allCards.map (fun c => c.id)
  let rels := db.cardLabels.filter (fun r => cardIds.contains r.cardId)
  let cls := sortByIdx (fun c => c.index) (db.checklists.filter (fun c => cardIds.contains c.cardId && !c.deleted))
  let clIds := cls.map (fun c => c.id)
  let items := sortByIdx (fun i => i.index) (db.checklistItems.filter (fun i => clIds.contains i.checklistId && !i.deleted))
  lists.map (fun l =>
    { listName := l.name,
      cards := (allCards.filter (fun c => c.listId == l.id)).map (fun c =>
        { title := c.title,
          description := c.description,
          labels := (rels.filter (fun r => r.cardId == c.id)).map (fun r =>
            (((db.labels.find? (fun lb => lb.id == r.labelId))).map (fun lb => lb.name)).getD ""),
          checklists := (cls.filter (fun cl => cl.cardId == c.id)).map (fun cl =>
            { name := cl.name,
              items := (items.filter (fun it => it.checklistId == cl.id)).map (fun it =>
                ({ title := it.title, completed := it.completed } : ChecklistItemData)) }) }) })

/-- Total number of cards in a payload. -/
def totalCards : List ListData → Nat
  | [] => 0
  | e :: rest => e.cards.length + totalCards rest

/-! ## Specification-side characterizations

Closed-form descriptions of what the write loop produces (warning lists and
row counts), proven equal to the loop's behaviour below. -/

/-- The warnings the item loop of one checklist pushes: one per oversized item
title, in item order, independent of creation success. -/
def itemsWarnSpec (listName cardTitle : String) (cj : Nat)
    (items : List ChecklistItemData) (k : Nat) : List String :=
  match items with
  | [] => []
  | it :: rest =>
    (if 500 < it.title.length then [itemTruncWarning listName cardTitle cj k it] else []) ++
    itemsWarnSpec listName cardTitle cj rest (k + 1)

/-- The number of item rows the item loop writes: those the oracle lets
succeed. -/
def itemsOkCount (o : Oracle) (li ci cj : Nat) (items : List ChecklistItemData) (k : Nat) : Nat :=
  match items with
  | [] => 0
  | _ :: rest => (if o.itemOk li ci cj k then 1 else 0) + itemsOkCount o li ci cj rest (k + 1)

/-- The warnings one card's checklist loop pushes: for each checklist the
oracle lets succeed, its name-truncation warning (if oversized) followed by
its items' warnings; a skipped checklist contributes nothing. -/
def checklistsWarnSpec (o : Oracle) (li ci : Nat) (listName cardTitle : String)
    (cls : List ChecklistData) (j : Nat) : List String :=
  match cls with
  | [] => []
  | cl :: rest =>
    (if o.checklistOk li ci j then
       (if 255 < cl.name.length then [checklistTruncWarning listName cardTitle j cl] else []) ++
       itemsWarnSpec listName cardTitle j cl.items 0
     else []) ++
    checklistsWarnSpec o li ci listName cardTitle rest (j + 1)

/-- The number of checklist rows one card's checklist loop writes. -/
def checklistsOkCount (o : Oracle) (li ci : Nat) (cls : List ChecklistData) (j : Nat) : Nat :=
  match cls with
  | [] => 0
  | _ :: rest => (if o.checklistOk li ci j then 1 else 0) + checklistsOkCount o li ci rest (j + 1)

/-- The number of item rows one card's checklist loop writes (items of a
skipped checklist are skipped with it). -/
def checklistsItemCount (o : Oracle) (li ci : Nat) (cls : List ChecklistData) (j : Nat) : Nat :=
  match cls with
  | [] => 0
  | cl :: rest =>
    (if o.checklistOk li ci j then itemsOkCount o li ci j cl.items 0 else 0) +
    checklistsItemCount o li ci rest (j + 1)

/-- The warnings of the checklist pass over a list's cards. -/
def cardsClWarnSpec (o : Oracle) (li : Nat) (listName : String)
    (cards : List CardData) (ci : Nat) : List String :=
  match cards with
  | [] => []
  | c :: rest =>
    checklistsWarnSpec o li ci listName c.title c.checklists 0 ++
    cardsClWarnSpec o li listName rest (ci + 1)

/-- The number of checklist rows written for a list's cards. -/
def cardsClOkCount (o : Oracle) (li : Nat) (cards : List CardData) (ci : Nat) : Nat :=
  match cards with
  | [] => 0
  | c :: rest => checklistsOkCount o li ci c.checklists 0 + cardsClOkCount o li rest (ci + 1)

/-- The number of checklist-item rows written for a list's cards. -/
def cardsClItemCount (o : Oracle) (li : Nat) (cards : List CardData) (ci : Nat) : Nat :=
  match cards with
  | [] => 0
  | c :: rest => checklistsItemCount o li ci c.checklists 0 + cardsClItemCount o li rest (ci + 1)

/-- The duplicate-label warnings for a list's cards. -/
def dupWarnSpec (listName : String) (cards : List CardData) : List String :=
  match cards with
  | [] => []
  | c :: rest =>
    (if (uniqueLabelsOf c).length < c.labels.length then [dupLabelsWarning listName c] else []) ++
    dupWarnSpec listName rest

/-- All warnings one payload list contributes, in push order: truncation
warnings, duplicate-label warnings, checklist-pass warnings. -/
def listWarnSpec (o : Oracle) (li : Nat) (e : ListData) : List String :=
  truncWarningsFor e.listName e.cards 0 ++ dupWarnSpec e.listName e.cards ++
    cardsClWarnSpec o li e.listName e.cards 0

/-- All warnings of a successful import call, in list order. -/
def listsWarnSpec (o : Oracle) (es : List ListData) (li : Nat) : List String :=
  match es with
  | [] => []
  | e :: rest => listWarnSpec o li e ++ listsWarnSpec o rest (li + 1)

/-- The number of checklist rows a successful import writes. -/
def listsClOkCount (o : Oracle) (es : List ListData) (li : Nat) : Nat :=
  match es with
  | [] => 0
  | e :: rest => cardsClOkCount o li e.cards 0 + listsClOkCount o rest (li + 1)

/-- The number of checklist-item rows a successful import writes. -/
def listsItemCount (o : Oracle) (es : List ListData) (li : Nat) : Nat :=
  match es with
  | [] => 0
  | e :: rest => cardsClItemCount o li e.cards 0 + listsItemCount o rest (li + 1)

/-- The length-bound side conditions the Zod validator enforces, stated on the
validated payload. -/
def BoundsOk (ls : List ListData) : Prop :=
  ∀ e ∈ ls, ∀ c ∈ e.cards,
    c.title.length ≤ 255 ∧ c.description.length ≤ 10000 ∧
    ∀ cl ∈ c.checklists, cl.name.length ≤ 255 ∧ ∀ it ∈ cl.items, it.title.length ≤ 500

deriving instance DecidableEq for Except

/-- Whether an import outcome is a Validation (`BAD_REQUEST`) error. -/
def resultIsBadRequest (r : Except ImpErr ImportOutput) : Bool :=
  match r with
  | Except.error (ImpErr.badRequest _) => true
  | _ => false

/-- A single-list payload whose only card carries the given title and nothing
else. -/
def oversizedTitlePayload (s : String) : Json :=
  Json.obj [("listName", Json.str "List A"),
            ("cards", Json.arr [Json.obj [("title", Json.str s)]])]

/-- A 256-character title. -/
def title256 : String := String.mk (List.replicate 256 'a')

/-- A payload whose only card references the two new label names `"Bug"` and
`"bug"`, differing only in letter case. -/
def caseLabelsPayload : Json :=
  Json.obj [("listName", Json.str "List A"),
            ("cards", Json.arr [Json.obj [("title", Json.str "Card 1"),
              ("labels", Json.arr [Json.str "Bug", Json.str "bug"])]])]

/-- A payload with one checklist of two items, the first completed, the second
not. -/
def completedFlagPayload : Json :=
  Json.obj [("listName", Json.str "List A"), ("cards", Json.arr
    [Json.obj [("title", Json.str "Card 1"),
      ("checklists", Json.arr [Json.obj [("name", Json.str "CL"),
        ("items", Json.arr [Json.obj [("title", Json.str "i1"), ("completed", Json.bool true)],
                            Json.obj [("title", Json.str "i2")]])]])]])]

/-- A two-list payload, one card each. -/
def twoListsPayload : Json :=
  Json.arr
    [Json.obj [("listName", Json.str "List A"),
       ("cards", Json.arr [Json.obj [("title", Json.str "a1")]])],
     Json.obj [("listName", Json.str "List B"),
       ("cards", Json.arr [Json.obj [("title", Json.str "b1")]])]]

/-- The validated form of `twoListsPayload`. -/
def twoListsData : List ListData :=
  [⟨"List A", [⟨"a1", "", [], []⟩]⟩, ⟨"List B", [⟨"b1", "", [], []⟩]⟩]

/-- An oracle whose card bulk insert returns no rows for the second list
(index 1) and succeeds everywhere else. -/
def failCardsAtList1 : Oracle :=
  ⟨true, fun _ => true, fun k => !(k == 1), fun _ _ _ => true, fun _ _ _ _ => true⟩

/-- A payload naming a list but carrying zero cards. -/
def emptyListPayload : Json :=
  Json.arr [Json.obj [("listName", Json.str "Todo"), ("cards", Json.arr [])]]

/-- A payload whose list name and card label differ only in case from
pre-existing board entities. -/
def reusePayload : Json :=
  Json.obj [("listName", Json.str "to do"),
            ("cards", Json.arr [Json.obj [("title", Json.str "Card 1"),
              ("labels", Json.arr [Json.str "Bug"])]])]

/-- A board that already has a non-deleted list "TO DO" and a non-deleted
label "bug". -/
def boardWithExisting : DB :=
  { lists := [⟨1, "TO DO", 1, 0, "owner", none, false⟩],
    labels := [⟨2, "bug", "#ef4444", 1, "owner", none, false⟩],
    cards := [], cardLabels := [], checklists := [], checklistItems := [],
    activities := [], imports := [], nextId := 3 }

/-- A single-list payload with two cards. -/
def twoCardsPayload : Json :=
  Json.obj [("listName", Json.str "List A"),
            ("cards", Json.arr [Json.obj [("title", Json.str "first")],
                                Json.obj [("title", Json.str "second")]])]

/-- A payload with one card carrying two one-item checklists. -/
def twoChecklistsPayload : Json :=
  Json.obj [("listName", Json.str "List A"), ("cards", Json.arr
    [Json.obj [("title", Json.str "Card 1"),
      ("checklists", Json.arr
        [Json.obj [("name", Json.str "CL1"),
           ("items", Json.arr [Json.obj [("title", Json.str "i1")]])],
         Json.obj [("name", Json.str "CL2"),
           ("items", Json.arr [Json.obj [("title", Json.str "i2")]])]])]])]

/-- The validated form of `twoChecklistsPayload`. -/
def twoChecklistsData : List ListData :=
  [⟨"List A", [⟨"Card 1", "", [],
    [⟨"CL1", [⟨"i1", false⟩]⟩, ⟨"CL2", [⟨"i2", false⟩]⟩]⟩]⟩]

/-- An oracle under which the first checklist creation of the first card of
the first list returns no row, and everything else succeeds. -/
def failFirstChecklist : Oracle :=
  ⟨true, fun _ => true, fun _ => true,
   fun li ci j => !(li == 0 && ci == 0 && j == 0), fun _ _ _ _ => true⟩

/-- A payload whose only card references the label name `" Bug"` with a
leading space. -/
def wsLabelPayload : Json :=
  Json.obj [("listName", Json.str "List A"),
            ("cards", Json.arr [Json.obj [("title", Json.str "Card 1"),
              ("labels", Json.arr [Json.str " Bug"])]])]

/-- The validated form of `wsLabelPayload`. -/
def wsLabelData : List ListData :=
  [⟨"List A", [⟨"Card 1", "", [" Bug"], []⟩]⟩]

/-! ## Theorems -/

/-- C1 (code_bug): the spec promises that an import payload whose card title
exceeds 255 characters but is otherwise valid succeeds with the title
truncated to 255 characters and exactly one warning.  The code instead
rejects such a payload outright: the Zod `CardSchema` bounds
(`z.string().min(1).max(255)`) fail validation before any write, so the call
raises a Validation (`BAD_REQUEST`) error, nothing is persisted, and
the truncation-and-warning code at json-import.ts lines 396–422 (and likewise
the description/checklist-name/item-title truncation warnings) is
unreachable.  For every oversized title the call returns the aggregated
validation error and leaves the store untouched. -/
theorem c1_oversized_title_is_rejected_not_truncated (o : Oracle) (b : Nat) (u : String)
    (db : DB) (s : String) (h : 255 < s.length) :
    importCards o b u (some (oversizedTitlePayload s)) db
      = (Except.error (ImpErr.badRequest invalidStructureMsg), db) := by
  have hs : (1 ≤ s.length ∧ s.length ≤ 255) = False := by
    simp only [eq_iff_iff, iff_false]
    omega
  simp [importCards, parseAndValidate, oversizedTitlePayload, preprocess, preprocessCards,
    preprocessCard, Json.lookup, List.lookup, Json.isObjectLike, fieldOrEmptyString,
    validateTop, validateList, validateCard, List.enum, List.enumFrom, List.mapM, List.mapM.loop,
    hs]

set_option maxRecDepth 100000 in
/-- Witness for C1: a concrete 256-character title satisfies the hypothesis,
and the import evaluates to the Validation error with the store unchanged. -/
theorem c1_oversized_title_is_rejected_not_truncated_witness :
    (255 < title256.length)
    ∧ importCards Oracle.allOk 1 "u" (some (oversizedTitlePayload title256)) DB.empty
        = (Except.error (ImpErr.badRequest invalidStructureMsg), DB.empty) :=
  ⟨by decide, c1_oversized_title_is_rejected_not_truncated Oracle.allOk 1 "u" DB.empty title256 (by decide)⟩

set_option maxRecDepth 100000 in
/-- C2 (code_bug): label names are claimed to stay unique per board ignoring
case, with at most one label created per case-insensitive name.  But
`labelsToCreate` (json-import.ts lines 320–325) checks `labelMap.has` without
updating the map inside the loop, so a payload referencing the two new names
`"Bug"` and `"bug"` creates both labels: after importing it into an empty
board the board holds two distinct labels whose lowercased names are equal. -/
theorem c2_case_insensitive_label_uniqueness_violated :
    ((importCards Oracle.allOk 1 "u" (some caseLabelsPayload) DB.empty).2.labels.map (fun r => r.name)
       = ["Bug", "bug"])
    ∧ jsLower "Bug" = jsLower "bug" ∧ ("Bug" : String) ≠ "bug" :=
  ⟨by decide, by decide, by decide⟩

set_option maxRecDepth 100000 in
/-- C3 (code_bug): the export-after-import round trip is claimed to preserve
checklist-item completed flags.  But `checklistRepo.createItem` is called
without the payload's `completed` value (json-import.ts lines 537–541), so
every imported item is stored with the column default `false`: the document
below validates with completed flags `[true, false]`, yet exporting the board
right after importing it yields `[false, false]`.  (List names, card
titles/descriptions, and the checklist/item structure and order do come back
intact here.) -/
theorem c3_completed_flag_not_round_tripped :
    parseAndValidate (some completedFlagPayload)
      = Except.ok [⟨"List A", [⟨"Card 1", "", [], [⟨"CL", [⟨"i1", true⟩, ⟨"i2", false⟩]⟩]⟩]⟩]
    ∧ exportCards 1 (importCards Oracle.allOk 1 "u" (some completedFlagPayload) DB.empty).2
      = [⟨"List A", [⟨"Card 1", "", [], [⟨"CL", [⟨"i1", false⟩, ⟨"i2", false⟩]⟩]⟩]⟩] :=
  ⟨by decide, by decide⟩

/-- C5 (confirmed): for every input whose payload is unparsable JSON, fails
schema validation, or is rejected by the preprocessor (non-object card,
array entry with missing or non-string listName), the import raises a
Validation (`BAD_REQUEST`) error and the store is returned unchanged — in
particular no entity is written and no ImportBatch record is created, since
`importRepo.create` runs only after all three stages succeed. -/
theorem c5_validation_failures_touch_nothing (o : Oracle) (b : Nat) (u : String)
    (pd : Option Json) (db : DB)
    (h : pd = none
      ∨ (∃ j, pd = some j ∧ ∃ m, preprocess j = Except.error m)
      ∨ (∃ j j2, pd = some j ∧ preprocess j = Except.ok j2 ∧ validateTop j2 = none)) :
    (importCards o b u pd db).2 = db
    ∧ resultIsBadRequest (importCards o b u pd db).1 = true := by
  rcases h with h | ⟨j, rfl, m, hm⟩ | ⟨j, j2, rfl, hok, hv⟩
  · subst h; exact ⟨rfl, rfl⟩
  · simp [importCards, parseAndValidate, hm, resultIsBadRequest]
  · simp [importCards, parseAndValidate, hok, hv, resultIsBadRequest]

/-- Witness for C5: an unparsable payload (a string `JSON.parse` throws on)
satisfies the hypothesis; the import reports `BAD_REQUEST` and the store is
untouched. -/
theorem c5_validation_failures_touch_nothing_witness :
    ((none : Option Json) = none
      ∨ (∃ j, (none : Option Json) = some j ∧ ∃ m, preprocess j = Except.error m)
      ∨ (∃ j j2, (none : Option Json) = some j ∧ preprocess j = Except.ok j2 ∧ validateTop j2 = none))
    ∧ ((importCards Oracle.allOk 1 "u" none DB.empty).2 = DB.empty
       ∧ resultIsBadRequest (importCards Oracle.allOk 1 "u" none DB.empty).1 = true) :=
  ⟨Or.inl rfl, c5_validation_failures_touch_nothing Oracle.allOk 1 "u" none DB.empty (Or.inl rfl)⟩

theorem processItems_shape (o : Oracle) (li ci cj : Nat) (ln ct u : String) :
    ∀ (items : List ChecklistItemData) (k clId : Nat) (db : DB) (ws : List String),
    ∃ rows, processItems o li ci cj ln ct u items k clId db ws =
        ({ db with checklistItems := db.checklistItems ++ rows, nextId := db.nextId + rows.length },
         ws ++ itemsWarnSpec ln ct cj items k)
      ∧ rows.length = itemsOkCount o li ci cj items k := by
  intro items
  induction items with
  | nil =>
    intro k clId db ws
    exact ⟨[], by simp [processItems, itemsWarnSpec], by simp [itemsOkCount]⟩
  | cons it rest ih =>
    intro k clId db ws
    by_cases ho : o.itemOk li ci cj k
    · obtain ⟨rows, heq, hlen⟩ :=
        ih (k + 1) clId ((db.insertChecklistItem (jsTake it.title 500) clId u).2)
          (if 500 < it.title.length then ws ++ [itemTruncWarning ln ct cj k it] else ws)
      refine ⟨⟨db.nextId, clId, jsTake it.title 500, false,
        (db.checklistItems.filter (fun i => i.checklistId == clId && !i.deleted)).length,
        u, false⟩ :: rows, ?_, ?_⟩
      · simp only [processItems, ho, if_true]
        rw [heq]
        refine Prod.ext ?_ ?_
        · simp [DB.insertChecklistItem, List.append_assoc, Nat.add_assoc]
          omega
        · simp only [itemsWarnSpec]
          by_cases hw : 500 < it.title.length <;> simp [hw]
      · simp only [itemsOkCount, ho, if_true, List.length_cons]
        omega
    · rw [Bool.not_eq_true] at ho
      obtain ⟨rows, heq, hlen⟩ :=
        ih (k + 1) clId db
          (if 500 < it.title.length then ws ++ [itemTruncWarning ln ct cj k it] else ws)
      refine ⟨rows, ?_, ?_⟩
      · simp only [processItems, ho, Bool.false_eq_true, if_false]
        rw [heq]
        refine Prod.ext rfl ?_
        simp only [itemsWarnSpec]
        by_cases hw : 500 < it.title.length <;> simp [hw]
      · simp only [itemsOkCount, ho, Bool.false_eq_true, if_false]
        omega

theorem processChecklists_shape (o : Oracle) (li ci : Nat) (ln ct u : String) :
    ∀ (cls : List ChecklistData) (j cardId : Nat) (db : DB) (ws : List String),
    ∃ clRows itRows, processChecklists o li ci ln ct u cls j cardId db ws =
        ({ db with checklists := db.checklists ++ clRows,
                   checklistItems := db.checklistItems ++ itRows,
                   nextId := db.nextId + clRows.length + itRows.length },
         ws ++ checklistsWarnSpec o li ci ln ct cls j)
      ∧ clRows.length = checklistsOkCount o li ci cls j
      ∧ itRows.length = checklistsItemCount o li ci cls j := by
  intro cls
  induction cls with
  | nil =>
    intro j cardId db ws
    exact ⟨[], [], by simp [processChecklists, checklistsWarnSpec],
      by simp [checklistsOkCount], by simp [checklistsItemCount]⟩
  | cons cl rest ih =>
    intro j cardId db ws
    by_cases ho : o.checklistOk li ci j
    · obtain ⟨rows, heqIt, hlenIt⟩ :=
        processItems_shape o li ci j ln ct u cl.items 0
          (db.insertChecklist (jsTake cl.name 255) cardId u).1
          (db.insertChecklist (jsTake cl.name 255) cardId u).2
          (if 255 < cl.name.length then ws ++ [checklistTruncWarning ln ct j cl] else ws)
      obtain ⟨clRows, itRows, heq, hlen1, hlen2⟩ :=
        ih (j + 1) cardId
          ((processItems o li ci j ln ct u cl.items 0
            (db.insertChecklist (jsTake cl.name 255) cardId u).1
            (db.insertChecklist (jsTake cl.name 255) cardId u).2
            (if 255 < cl.name.length then ws ++ [checklistTruncWarning ln ct j cl] else ws)).1)
          ((processItems o li ci j ln ct u cl.items 0
            (db.insertChecklist (jsTake cl.name 255) cardId u).1
            (db.insertChecklist (jsTake cl.name 255) cardId u).2
            (if 255 < cl.name.length then ws ++ [checklistTruncWarning ln ct j cl] else ws)).2)
      refine ⟨⟨db.nextId, cardId, jsTake cl.name 255,
        (db.checklists.filter (fun c => c.cardId == cardId && !c.deleted)).length,
        u, false⟩ :: clRows, rows ++ itRows, ?_, ?_, ?_⟩
      · simp only [processChecklists, ho, if_true]
        rw [heq, heqIt]
        refine Prod.ext ?_ ?_
        · simp [DB.insertChecklist, List.append_assoc]
          omega
        · simp only [checklistsWarnSpec, ho, if_true]
          by_cases hw : 255 < cl.name.length <;> simp [hw, List.append_assoc]
      · simp only [checklistsOkCount, ho, if_true, List.length_cons]
        omega
      · simp only [checklistsItemCount, ho, if_true, List.length_append]
        omega
    · rw [Bool.not_eq_true] at ho
      obtain ⟨clRows, itRows, heq, hlen1, hlen2⟩ := ih (j + 1) cardId db ws
      refine ⟨clRows, itRows, ?_, ?_, ?_⟩
      · simp only [processChecklists, ho, Bool.false_eq_true, if_false]
        rw [heq]
        refine Prod.ext rfl ?_
        simp [checklistsWarnSpec, ho]
      · simp only [checklistsOkCount, ho, Bool.false_eq_true, if_false]
        omega
      · simp only [checklistsItemCount, ho, Bool.false_eq_true, if_false]
        omega

theorem processCardsChecklists_shape (o : Oracle) (li : Nat) (ln u : String) :
    ∀ (pairs : List (Nat × CardData)) (ci : Nat) (db : DB) (ws : List String),
    ∃ clRows itRows, processCardsChecklists o li ln u pairs ci db ws =
        ({ db with checklists := db.checklists ++ clRows,
                   checklistItems := db.checklistItems ++ itRows,
                   nextId := db.nextId + clRows.length + itRows.length },
         ws ++ cardsClWarnSpec o li ln (pairs.map Prod.snd) ci)
      ∧ clRows.length = cardsClOkCount o li (pairs.map Prod.snd) ci
      ∧ itRows.length = cardsClItemCount o li (pairs.map Prod.snd) ci := by
  intro pairs
  induction pairs with
  | nil =>
    intro ci db ws
    exact ⟨[], [], by simp [processCardsChecklists, cardsClWarnSpec],
      by simp [cardsClOkCount], by simp [cardsClItemCount]⟩
  | cons p rest ih =>
    intro ci db ws
    obtain ⟨rows1, it1, heq1, ha, hb⟩ :=
      processChecklists_shape o li ci ln p.2.title u p.2.checklists 0 p.1 db ws
    obtain ⟨rows2, it2, heq2, hc, hd⟩ :=
      ih (ci + 1)
        ((processChecklists o li ci ln p.2.title u p.2.checklists 0 p.1 db ws).1)
        ((processChecklists o li ci ln p.2.title u p.2.checklists 0 p.1 db ws).2)
    refine ⟨rows1 ++ rows2, it1 ++ it2, ?_, ?_, ?_⟩
    · have hp : processCardsChecklists o li ln u (p :: rest) ci db ws
        = processCardsChecklists o li ln u rest (ci + 1)
            ((processChecklists o li ci ln p.2.title u p.2.checklists 0 p.1 db ws).1)
            ((processChecklists o li ci ln p.2.title u p.2.checklists 0 p.1 db ws).2) := by
        rw [processCardsChecklists]
      rw [hp, heq2, heq1]
      refine Prod.ext ?_ ?_
      · simp [List.append_assoc]
        omega
      · simp [cardsClWarnSpec, List.append_assoc]
    · simp only [cardsClOkCount, List.map_cons, List.length_append]
      omega
    · simp only [cardsClItemCount, List.map_cons, List.length_append]
      omega

theorem insertCardsAux_shape (listId : Nat) (u : String) (iid : Nat) :
    ∀ (cards : List CardData) (i : Nat) (db : DB),
    ∃ ids rows, insertCardsAux cards i listId u iid db =
        (ids, { db with cards := db.cards ++ rows, nextId := db.nextId + rows.length })
      ∧ rows.length = cards.length ∧ ids.length = cards.length
      ∧ (∀ r ∈ rows, ∃ k c, cards.get? k = some c ∧ r.index = i + k
          ∧ r.title = jsTake c.title 255 ∧ r.description = jsTake c.description 10000
          ∧ r.listId = listId ∧ r.importId = some iid) := by
  intro cards
  induction cards with
  | nil =>
    intro i db
    exact ⟨[], [], by simp [insertCardsAux], rfl, rfl, by simp⟩
  | cons c rest ih =>
    intro i db
    obtain ⟨ids, rows, heq, h1, h2, h3⟩ :=
      ih (i + 1) { db with cards := db.cards ++ [⟨db.nextId, db.nextId, jsTake c.title 255,
        jsTake c.description 10000, listId, i, u, some iid, false⟩], nextId := db.nextId + 1 }
    refine ⟨db.nextId :: ids, ⟨db.nextId, db.nextId, jsTake c.title 255,
        jsTake c.description 10000, listId, i, u, some iid, false⟩ :: rows, ?_, ?_, ?_, ?_⟩
    · show insertCardsAux (c :: rest) i listId u iid db = _
      rw [insertCardsAux]
      rw [heq]
      refine Prod.ext rfl ?_
      simp [List.append_assoc]
      omega
    · simp [h1]
    · simp [h2]
    · intro r hr
      rcases List.mem_cons.mp hr with hr | hr
      · exact ⟨0, c, by simp [hr]⟩
      · obtain ⟨k, c2, hk, hidx, ht, hd, hl, hi⟩ := h3 r hr
        exact ⟨k + 1, c2, by simpa using hk, by omega, ht, hd, hl, hi⟩

theorem relsAndDupWarns_snd (m : List (String × Nat)) (ln : String) :
    ∀ pairs, (relsAndDupWarns m ln pairs).2 = dupWarnSpec ln (pairs.map Prod.snd) := by
  intro pairs
  induction pairs with
  | nil => simp [relsAndDupWarns, dupWarnSpec]
  | cons p rest ih =>
    cases p with
    | mk cid c => simp [relsAndDupWarns, dupWarnSpec, ih]

theorem relsAndDupWarns_fst_mem (m : List (String × Nat)) (ln : String) :
    ∀ pairs rel, rel ∈ (relsAndDupWarns m ln pairs).1 →
      ∃ p ∈ pairs, rel.cardId = p.1
        ∧ ∃ nm ∈ uniqueLabelsOf p.2, mapGet m (jsLower nm) = some rel.labelId := by
  intro pairs
  induction pairs with
  | nil => intro rel h; simp [relsAndDupWarns] at h
  | cons p rest ih =>
    intro rel h
    cases p with
    | mk cid c =>
      rw [relsAndDupWarns] at h
      rcases List.mem_append.mp h with h | h
      · obtain ⟨nm, hnm, hmap⟩ := List.mem_filterMap.mp h
        rcases Option.map_eq_some'.mp hmap with ⟨lid, hget, hrel⟩
        refine ⟨(cid, c), List.mem_cons_self _ _, ?_, nm, hnm, ?_⟩
        · rw [← hrel]
        · rw [← hrel]; exact hget
      · obtain ⟨q, hq, hrest⟩ := ih rel h
        exact ⟨q, List.mem_cons_of_mem _ hq, hrest⟩


theorem processListWrites_shape (o : Oracle) (ctx : ImportCtx) (li : Nat) (e : ListData)
    (listId : Nat) (s1 : LoopState) :
    ∃ (ids : List Nat) (rows : List CardRow) (clRows : List ChecklistRow)
      (itRows : List ChecklistItemRow) (N : Nat),
      processListWrites o ctx li e listId s1 =
        ⟨⟨s1.db.lists, s1.db.labels, s1.db.cards ++ rows,
          s1.db.cardLabels ++ (relsAndDupWarns ctx.labelMap e.listName (ids.zip e.cards)).1,
          s1.db.checklists ++ clRows, s1.db.checklistItems ++ itRows,
          s1.db.activities ++ ids.map (fun cid => ActivityRow.mk cid "card.created" ctx.userId),
          s1.db.imports, N⟩,
         s1.existingLists, s1.warnings ++ listWarnSpec o li e, s1.cardsCreated + e.cards.length⟩
      ∧ rows.length = e.cards.length ∧ ids.length = e.cards.length
      ∧ clRows.length = cardsClOkCount o li e.cards 0
      ∧ itRows.length = cardsClItemCount o li e.cards 0
      ∧ (∀ r ∈ rows, ∃ k c, e.cards.get? k = some c ∧ r.index = k
          ∧ r.title = jsTake c.title 255 ∧ r.description = jsTake c.description 10000
          ∧ r.listId = listId ∧ r.importId = some ctx.importId) := by
  obtain ⟨ids, rows, heqC, h1, h2, h3⟩ :=
    insertCardsAux_shape listId ctx.userId ctx.importId e.cards 0 s1.db
  have hmap : (ids.zip e.cards).map Prod.snd = e.cards :=
    List.map_snd_zip ids e.cards (by omega)
  obtain ⟨clRows, itRows, heqL, h4, h5⟩ :=
    processCardsChecklists_shape o li e.listName ctx.userId (ids.zip e.cards) 0
      (⟨s1.db.lists, s1.db.labels, s1.db.cards ++ rows,
        s1.db.cardLabels ++ (relsAndDupWarns ctx.labelMap e.listName (ids.zip e.cards)).1,
        s1.db.checklists, s1.db.checklistItems,
        s1.db.activities ++ ids.map (fun cid => ActivityRow.mk cid "card.created" ctx.userId),
        s1.db.imports, s1.db.nextId + rows.length⟩ : DB)
      ((s1.warnings ++ truncWarningsFor e.listName e.cards 0) ++
        (relsAndDupWarns ctx.labelMap e.listName (ids.zip e.cards)).2)
  rw [hmap] at h4 h5
  refine ⟨ids, rows, clRows, itRows,
    s1.db.nextId + rows.length + clRows.length + itRows.length, ?_, h1, h2, h4, h5, ?_⟩
  · simp only [processListWrites]
    rw [heqC]
    rw [heqL]
    simp [listWarnSpec, List.append_assoc, h2, relsAndDupWarns_snd, hmap]
  · intro r hr
    obtain ⟨k, c, hk, hidx, rest⟩ := h3 r hr
    exact ⟨k, c, hk, by omega, rest⟩


theorem resolveList_cases (o : Oracle) (li : Nat) (ctx : ImportCtx) (name : String) (s : LoopState) :
    (∃ p, findExistingList s.existingLists name = some p ∧ resolveList o li ctx name s = Except.ok (p.1, s))
  ∨ (findExistingList s.existingLists name = none ∧ o.listCreateOk li = true ∧
      resolveList o li ctx name s = Except.ok (s.db.nextId,
        ⟨{ s.db with lists := s.db.lists ++ [⟨s.db.nextId, name, ctx.boardId,
            (s.db.lists.filter (fun l => l.boardId == ctx.boardId && !l.deleted)).length,
            ctx.userId, some ctx.importId, false⟩], nextId := s.db.nextId + 1 },
         s.existingLists ++ [(s.db.nextId, name)], s.warnings, s.cardsCreated⟩))
  ∨ (findExistingList s.existingLists name = none ∧ o.listCreateOk li = false ∧
      resolveList o li ctx name s =
        Except.error (ImpErr.internal ("Failed to create list \"" ++ name ++ "\""))) := by
  cases hf : findExistingList s.existingLists name with
  | some p => exact Or.inl ⟨p, rfl, by simp [resolveList, hf]⟩
  | none =>
    by_cases hl : o.listCreateOk li
    · refine Or.inr (Or.inl ⟨rfl, hl, ?_⟩)
      simp only [resolveList, hf, hl, if_true, DB.insertList]
    · rw [Bool.not_eq_true] at hl
      refine Or.inr (Or.inr ⟨rfl, hl, ?_⟩)
      simp [resolveList, hf, hl]

theorem listData_cards_ne_nil_of_not_isEmpty (e : ListData) (h : ¬e.cards.isEmpty = true) :
    e.cards ≠ [] := by
  cases hc : e.cards with
  | nil => rw [hc] at h; simp [List.isEmpty] at h
  | cons a l => simp

theorem processList_ok (o : Oracle) (ctx : ImportCtx) (li : Nat) (e : ListData) (s : LoopState)
    (hname : (jsTrim e.listName == "") = false)
    (hl : o.listCreateOk li = true) (hc : o.cardBulkOk li = true) :
    (processList o ctx li e s).1 = none
    ∧ (processList o ctx li e s).2.db.labels = s.db.labels
    ∧ (processList o ctx li e s).2.db.imports = s.db.imports
    ∧ (processList o ctx li e s).2.db.cards.length = s.db.cards.length + e.cards.length
    ∧ (processList o ctx li e s).2.cardsCreated = s.cardsCreated + e.cards.length
    ∧ (processList o ctx li e s).2.db.checklists.length
        = s.db.checklists.length + cardsClOkCount o li e.cards 0
    ∧ (processList o ctx li e s).2.db.checklistItems.length
        = s.db.checklistItems.length + cardsClItemCount o li e.cards 0
    ∧ (processList o ctx li e s).2.warnings = s.warnings ++ listWarnSpec o li e := by
  by_cases hemp : e.cards.isEmpty
  · have he : e.cards = [] := by
      cases hcc : e.cards with
      | nil => rfl
      | cons a l => rw [hcc] at hemp; simp [List.isEmpty] at hemp
    simp [processList, hname, hemp, he, cardsClOkCount, cardsClItemCount, listWarnSpec,
      truncWarningsFor, dupWarnSpec, cardsClWarnSpec]
  · rcases resolveList_cases o li ctx e.listName s with ⟨p, hf, hres⟩ | ⟨hf, _, hres⟩ | ⟨hf, hl2, hres⟩
    · obtain ⟨ids, rows, clRows, itRows, N, heqW, a1, a2, a3, a4, a5⟩ :=
        processListWrites_shape o ctx li e p.1 s
      have hemp2 : e.cards.isEmpty = false := by rw [Bool.not_eq_true] at hemp; exact hemp
      simp only [processList, hname, Bool.false_eq_true, if_false, hemp2, hres, hc, if_true]
      rw [heqW]
      simp [a1, a3, a4]
    · obtain ⟨ids, rows, clRows, itRows, N, heqW, a1, a2, a3, a4, a5⟩ :=
        processListWrites_shape o ctx li e s.db.nextId
          ⟨{ s.db with lists := s.db.lists ++ [⟨s.db.nextId, e.listName, ctx.boardId,
              (s.db.lists.filter (fun l => l.boardId == ctx.boardId && !l.deleted)).length,
              ctx.userId, some ctx.importId, false⟩], nextId := s.db.nextId + 1 },
           s.existingLists ++ [(s.db.nextId, e.listName)], s.warnings, s.cardsCreated⟩
      have hemp2 : e.cards.isEmpty = false := by rw [Bool.not_eq_true] at hemp; exact hemp
      simp only [processList, hname, Bool.false_eq_true, if_false, hemp2, hres, hc, if_true]
      rw [heqW]
      simp [a1, a3, a4]
    · rw [hl] at hl2; exact absurd hl2 (by simp)

theorem processList_cardfail (o : Oracle) (ctx : ImportCtx) (li : Nat) (e : ListData) (s : LoopState)
    (hname : (jsTrim e.listName == "") = false)
    (hne : ¬e.cards.isEmpty = true)
    (hl : o.listCreateOk li = true) (hc : o.cardBulkOk li = false) :
    (processList o ctx li e s).1
        = some (ImpErr.internal ("Failed to create cards for list \"" ++ e.listName ++ "\""))
    ∧ (processList o ctx li e s).2.db.cards = s.db.cards
    ∧ (processList o ctx li e s).2.db.imports = s.db.imports
    ∧ (processList o ctx li e s).2.db.labels = s.db.labels
    ∧ (processList o ctx li e s).2.db.checklists = s.db.checklists
    ∧ (processList o ctx li e s).2.db.checklistItems = s.db.checklistItems
    ∧ (processList o ctx li e s).2.db.cardLabels = s.db.cardLabels := by
  have hemp2 : e.cards.isEmpty = false := by rw [Bool.not_eq_true] at hne; exact hne
  rcases resolveList_cases o li ctx e.listName s with ⟨p, hf, hres⟩ | ⟨hf, _, hres⟩ | ⟨hf, hl2, hres⟩
  · simp [processList, hname, hemp2, hres, hc]
  · simp [processList, hname, hemp2, hres, hc]
  · rw [hl] at hl2; exact absurd hl2 (by simp)


theorem processList_any (o : Oracle) (ctx : ImportCtx) (li : Nat) (e : ListData) (s : LoopState) :
    (processList o ctx li e s).2.db.labels = s.db.labels
    ∧ (processList o ctx li e s).2.db.imports = s.db.imports
    ∧ (∀ r ∈ (processList o ctx li e s).2.db.lists,
        r ∈ s.db.lists ∨ (r.name = e.listName ∧ r.boardId = ctx.boardId
          ∧ e.cards ≠ [] ∧ r.importId = some ctx.importId))
    ∧ (∀ r ∈ (processList o ctx li e s).2.db.cards,
        r ∈ s.db.cards ∨ ∃ k c, e.cards.get? k = some c ∧ r.index = k
          ∧ r.title = jsTake c.title 255 ∧ r.description = jsTake c.description 10000)
    ∧ (∀ rel ∈ (processList o ctx li e s).2.db.cardLabels,
        rel ∈ s.db.cardLabels ∨ ∃ c ∈ e.cards, ∃ nm ∈ uniqueLabelsOf c,
          mapGet ctx.labelMap (jsLower nm) = some rel.labelId) := by
  by_cases hname : (jsTrim e.listName == "") = true
  · simp only [processList, hname, if_true]
    exact ⟨by trivial, by trivial, fun r hr => Or.inl hr, fun r hr => Or.inl hr, fun rel hr => Or.inl hr⟩
  · rw [Bool.not_eq_true] at hname
    by_cases hemp : e.cards.isEmpty
    · simp only [processList, hname, Bool.false_eq_true, if_false, hemp, if_true]
      exact ⟨by trivial, by trivial, fun r hr => Or.inl hr, fun r hr => Or.inl hr, fun rel hr => Or.inl hr⟩
    · have hne : e.cards ≠ [] := listData_cards_ne_nil_of_not_isEmpty e hemp
      have hemp2 : e.cards.isEmpty = false := by rw [Bool.not_eq_true] at hemp; exact hemp
      rcases resolveList_cases o li ctx e.listName s with ⟨p, hf, hres⟩ | ⟨hf, _, hres⟩ | ⟨hf, hl2, hres⟩
      · by_cases hc : o.cardBulkOk li
        · obtain ⟨ids, rows, clRows, itRows, N, heqW, a1, a2, a3, a4, a5⟩ :=
            processListWrites_shape o ctx li e p.1 s
          simp only [processList, hname, Bool.false_eq_true, if_false, hemp2, hres, hc, if_true]
          rw [heqW]
          refine ⟨by trivial, by trivial, fun r hr => Or.inl hr, ?_, ?_⟩
          · intro r hr
            rcases List.mem_append.mp hr with hr | hr
            · exact Or.inl hr
            · obtain ⟨k, c, hk, hrest⟩ := a5 r hr
              exact Or.inr ⟨k, c, hk, hrest.1, hrest.2.1, hrest.2.2.1⟩
          · intro rel hr
            rcases List.mem_append.mp hr with hr | hr
            · exact Or.inl hr
            · obtain ⟨q, hq, hcid, nm, hnm, hget⟩ :=
                relsAndDupWarns_fst_mem ctx.labelMap e.listName (ids.zip e.cards) rel hr
              exact Or.inr ⟨q.2, (List.of_mem_zip hq).2, nm, hnm, hget⟩
        · rw [Bool.not_eq_true] at hc
          simp only [processList, hname, Bool.false_eq_true, if_false, hemp2, hres, hc]
          exact ⟨by trivial, by trivial, fun r hr => Or.inl hr, fun r hr => Or.inl hr, fun rel hr => Or.inl hr⟩
      · by_cases hc : o.cardBulkOk li
        · obtain ⟨ids, rows, clRows, itRows, N, heqW, a1, a2, a3, a4, a5⟩ :=
            processListWrites_shape o ctx li e s.db.nextId
              ⟨{ s.db with lists := s.db.lists ++ [⟨s.db.nextId, e.listName, ctx.boardId,
                  (s.db.lists.filter (fun l => l.boardId == ctx.boardId && !l.deleted)).length,
                  ctx.userId, some ctx.importId, false⟩], nextId := s.db.nextId + 1 },
               s.existingLists ++ [(s.db.nextId, e.listName)], s.warnings, s.cardsCreated⟩
          simp only [processList, hname, Bool.false_eq_true, if_false, hemp2, hres, hc, if_true]
          rw [heqW]
          refine ⟨by trivial, by trivial, ?_, ?_, ?_⟩
          · intro r hr
            rcases List.mem_append.mp hr with hr | hr
            · exact Or.inl hr
            · rcases List.mem_singleton.mp hr with rfl
              exact Or.inr ⟨rfl, rfl, hne, rfl⟩
          · intro r hr
            rcases List.mem_append.mp hr with hr | hr
            · exact Or.inl hr
            · obtain ⟨k, c, hk, hrest⟩ := a5 r hr
              exact Or.inr ⟨k, c, hk, hrest.1, hrest.2.1, hrest.2.2.1⟩
          · intro rel hr
            rcases List.mem_append.mp hr with hr | hr
            · exact Or.inl hr
            · obtain ⟨q, hq, hcid, nm, hnm, hget⟩ :=
                relsAndDupWarns_fst_mem ctx.labelMap e.listName (ids.zip e.cards) rel hr
              exact Or.inr ⟨q.2, (List.of_mem_zip hq).2, nm, hnm, hget⟩
        · rw [Bool.not_eq_true] at hc
          simp only [processList, hname, Bool.false_eq_true, if_false, hemp2, hres, hc]
          refine ⟨by trivial, by trivial, ?_, fun r hr => Or.inl hr, fun rel hr => Or.inl hr⟩
          intro r hr
          rcases List.mem_append.mp hr with hr | hr
          · exact Or.inl hr
          · rcases List.mem_singleton.mp hr with rfl
            exact Or.inr ⟨rfl, rfl, hne, rfl⟩
      · simp only [processList, hname, Bool.false_eq_true, if_false, hemp2, hres]
        exact ⟨by trivial, by trivial, fun r hr => Or.inl hr, fun r hr => Or.inl hr, fun rel hr => Or.inl hr⟩


theorem processLists_ok (o : Oracle) (ctx : ImportCtx) :
    ∀ (es : List ListData) (li : Nat) (s : LoopState),
    (∀ e ∈ es, (jsTrim e.listName == "") = false) →
    (∀ k, k < es.length → o.listCreateOk (li + k) = true ∧ o.cardBulkOk (li + k) = true) →
    (processLists o ctx es li s).1 = none
    ∧ (processLists o ctx es li s).2.db.labels = s.db.labels
    ∧ (processLists o ctx es li s).2.db.imports = s.db.imports
    ∧ (processLists o ctx es li s).2.db.cards.length = s.db.cards.length + totalCards es
    ∧ (processLists o ctx es li s).2.cardsCreated = s.cardsCreated + totalCards es
    ∧ (processLists o ctx es li s).2.db.checklists.length
        = s.db.checklists.length + listsClOkCount o es li
    ∧ (processLists o ctx es li s).2.db.checklistItems.length
        = s.db.checklistItems.length + listsItemCount o es li
    ∧ (processLists o ctx es li s).2.warnings = s.warnings ++ listsWarnSpec o es li := by
  intro es
  induction es with
  | nil =>
    intro li s _ _
    simp [processLists, totalCards, listsClOkCount, listsItemCount, listsWarnSpec]
  | cons e rest ih =>
    intro li s hnames horacle
    obtain ⟨hnone, b1, b2, b3, b4, b5, b6, b7⟩ :=
      processList_ok o ctx li e s (hnames e (List.mem_cons_self e rest))
        (horacle 0 (by simp)).1 (horacle 0 (by simp)).2
    have hpair : processList o ctx li e s = (none, (processList o ctx li e s).2) :=
      Prod.ext hnone rfl
    obtain ⟨c0, c1, c2, c3, c4, c5, c6, c7⟩ :=
      ih (li + 1) ((processList o ctx li e s).2)
        (fun e2 he2 => hnames e2 (List.mem_cons_of_mem e he2))
        (fun k hk => by
          have := horacle (k + 1) (by simpa using Nat.succ_lt_succ hk)
          simpa [Nat.add_assoc, Nat.add_comm 1 k] using this)
    rw [processLists, hpair]
    simp only
    refine ⟨c0, by rw [c1, b1], by rw [c2, b2], ?_, ?_, ?_, ?_, ?_⟩
    · rw [c3, b3, totalCards]; omega
    · rw [c4, b4, totalCards]; omega
    · rw [c5, b5, listsClOkCount]; omega
    · rw [c6, b6, listsItemCount]; omega
    · rw [c7, b7, listsWarnSpec, List.append_assoc]

theorem processLists_any (o : Oracle) (ctx : ImportCtx) :
    ∀ (es : List ListData) (li : Nat) (s : LoopState),
    (processLists o ctx es li s).2.db.labels = s.db.labels
    ∧ (processLists o ctx es li s).2.db.imports = s.db.imports
    ∧ (∀ r ∈ (processLists o ctx es li s).2.db.lists,
        r ∈ s.db.lists ∨ ∃ e ∈ es, r.name = e.listName ∧ r.boardId = ctx.boardId
          ∧ e.cards ≠ [] ∧ r.importId = some ctx.importId)
    ∧ (∀ r ∈ (processLists o ctx es li s).2.db.cards,
        r ∈ s.db.cards ∨ ∃ e ∈ es, ∃ k c, e.cards.get? k = some c ∧ r.index = k
          ∧ r.title = jsTake c.title 255 ∧ r.description = jsTake c.description 10000)
    ∧ (∀ rel ∈ (processLists o ctx es li s).2.db.cardLabels,
        rel ∈ s.db.cardLabels ∨ ∃ e ∈ es, ∃ c ∈ e.cards, ∃ nm ∈ uniqueLabelsOf c,
          mapGet ctx.labelMap (jsLower nm) = some rel.labelId) := by
  intro es
  induction es with
  | nil =>
    intro li s
    simp only [processLists]
    exact ⟨by trivial, by trivial, fun r hr => Or.inl hr, fun r hr => Or.inl hr, fun rel hr => Or.inl hr⟩
  | cons e rest ih =>
    intro li s
    obtain ⟨a1, a2, a3, a4, a5⟩ := processList_any o ctx li e s
    cases hp : processList o ctx li e s with
    | mk fst snd =>
      rw [hp] at a1 a2 a3 a4 a5
      cases fst with
      | some err =>
        rw [processLists, hp]
        refine ⟨a1, a2, ?_, ?_, ?_⟩
        · intro r hr
          rcases a3 r hr with h | h
          · exact Or.inl h
          · exact Or.inr ⟨e, List.mem_cons_self e rest, h⟩
        · intro r hr
          rcases a4 r hr with h | h
          · exact Or.inl h
          · exact Or.inr ⟨e, List.mem_cons_self e rest, h⟩
        · intro rel hr
          rcases a5 rel hr with h | h
          · exact Or.inl h
          · exact Or.inr ⟨e, List.mem_cons_self e rest, h⟩
      | none =>
        obtain ⟨c1, c2, c3, c4, c5⟩ := ih (li + 1) snd
        rw [processLists, hp]
        simp only
        refine ⟨by rw [c1, a1], by rw [c2, a2], ?_, ?_, ?_⟩
        · intro r hr
          rcases c3 r hr with h | ⟨e2, he2, h⟩
          · rcases a3 r h with h | h
            · exact Or.inl h
            · exact Or.inr ⟨e, List.mem_cons_self e rest, h⟩
          · exact Or.inr ⟨e2, List.mem_cons_of_mem e he2, h⟩
        · intro r hr
          rcases c4 r hr with h | ⟨e2, he2, h⟩
          · rcases a4 r h with h | h
            · exact Or.inl h
            · exact Or.inr ⟨e, List.mem_cons_self e rest, h⟩
          · exact Or.inr ⟨e2, List.mem_cons_of_mem e he2, h⟩
        · intro rel hr
          rcases c5 rel hr with h | ⟨e2, he2, h⟩
          · rcases a5 rel h with h | h
            · exact Or.inl h
            · exact Or.inr ⟨e, List.mem_cons_self e rest, h⟩
          · exact Or.inr ⟨e2, List.mem_cons_of_mem e he2, h⟩

theorem processLists_append (o : Oracle) (ctx : ImportCtx) :
    ∀ (xs ys : List ListData) (li : Nat) (s : LoopState),
    processLists o ctx (xs ++ ys) li s =
      (match processLists o ctx xs li s with
       | (none, s2) => processLists o ctx ys (li + xs.length) s2
       | (some e2, s2) => (some e2, s2)) := by
  intro xs
  induction xs with
  | nil => intro ys li s; simp [processLists]
  | cons x rest ih =>
    intro ys li s
    rw [List.cons_append, processLists, processLists]
    cases hp : processList o ctx li x s with
    | mk fst snd =>
      cases fst with
      | some err => simp
      | none =>
        simp only
        rw [ih ys (li + 1) snd]
        have : li + 1 + rest.length = li + (rest.length + 1) := by omega
        rw [this]
        simp [List.length_cons]


theorem mapGet_mapSet_eq : ∀ (m : List (String × Nat)) (k q : String) (v : Nat),
    mapGet (mapSet m k v) q = if k == q then some v else mapGet m q := by
  intro m
  induction m with
  | nil => intro k q v; by_cases h : k = q <;> simp [mapSet, mapGet, beq_iff_eq, h]
  | cons p rest ih =>
    intro k q v
    cases p with
    | mk k2 v2 =>
      by_cases h2 : k2 = k
      · subst h2
        by_cases hq : k2 = q
        · subst hq; simp [mapSet, mapGet]
        · simp [mapSet, mapGet, beq_iff_eq, hq]
      · by_cases hq : k2 = q
        · subst hq
          have hkq : ¬k = k2 := fun h => h2 h.symm
          simp [mapSet, mapGet, beq_iff_eq, h2, hkq]
        · simp [mapSet, mapGet, beq_iff_eq, h2, hq, ih]

theorem mapGet_mapSet_isSome (m : List (String × Nat)) (k q : String) (v : Nat)
    (h : (mapGet m q).isSome = true) : (mapGet (mapSet m k v) q).isSome = true := by
  rw [mapGet_mapSet_eq]
  by_cases hk : k = q
  · simp [hk]
  · have : (k == q) = false := by simp [hk]
    simp [this, h]

theorem foldl_mapSet_get (rows : List LabelRow) :
    ∀ (m0 : List (String × Nat)) (k : String) (v : Nat),
    mapGet (rows.foldl (fun m r => mapSet m (jsLower r.name) r.id) m0) k = some v →
    (∃ r ∈ rows, r.id = v ∧ jsLower r.name = k) ∨ mapGet m0 k = some v := by
  induction rows with
  | nil => intro m0 k v h; exact Or.inr h
  | cons r rest ih =>
    intro m0 k v h
    rw [List.foldl_cons] at h
    rcases ih (mapSet m0 (jsLower r.name) r.id) k v h with ⟨r2, hr2, hrest⟩ | h2
    · exact Or.inl ⟨r2, List.mem_cons_of_mem r hr2, hrest⟩
    · rw [mapGet_mapSet_eq] at h2
      by_cases hk : jsLower r.name = k
      · rw [if_pos (by simp [hk])] at h2
        exact Or.inl ⟨r, List.mem_cons_self r rest, Option.some.inj h2, hk⟩
      · rw [if_neg (by simp [hk])] at h2
        exact Or.inr h2

theorem foldl_mapSet_isSome (rows : List LabelRow) :
    ∀ (m0 : List (String × Nat)) (k : String),
    ((mapGet m0 k).isSome = true ∨ ∃ r ∈ rows, jsLower r.name = k) →
    (mapGet (rows.foldl (fun m r => mapSet m (jsLower r.name) r.id) m0) k).isSome = true := by
  induction rows with
  | nil =>
    intro m0 k h
    rcases h with h | ⟨r, hr, _⟩
    · exact h
    · simp at hr
  | cons r rest ih
 =>
    intro m0 k h
    rw [List.foldl_cons]
    rcases h with h | ⟨r2, hr2, hk⟩
    · exact ih _ k (Or.inl (mapGet_mapSet_isSome m0 (jsLower r.name) k r.id h))
    · rcases List.mem_cons.mp hr2 with rfl | hr2
      · refine ih _ k (Or.inl ?_)
        rw [mapGet_mapSet_eq, if_pos (by simp [hk])]
        simp
      · exact ih _ k (Or.inr ⟨r2, hr2, hk⟩)

theorem buildLabelMap_get (rows : List LabelRow) (k : String) (v : Nat)
    (h : mapGet (buildLabelMap rows) k = some v) :
    ∃ r ∈ rows, r.id = v ∧ jsLower r.name = k := by
  rcases foldl_mapSet_get rows [] k v h with h2 | h2
  · exact h2
  · simp [mapGet] at h2

theorem buildLabelMap_isSome (rows : List LabelRow) (k : String)
    (h : ∃ r ∈ rows, jsLower r.name = k) :
    (mapGet (buildLabelMap rows) k).isSome = true :=
  foldl_mapSet_isSome rows [] k (Or.inr h)


theorem createLabelsAux_frame (ec b : Nat) (u : String) (iid : Nat) :
    ∀ (names : List String) (i : Nat) (m : List (String × Nat)) (db : DB),
    (createLabelsAux names i ec b u iid m db).2.lists = db.lists
    ∧ (createLabelsAux names i ec b u iid m db).2.cards = db.cards
    ∧ (createLabelsAux names i ec b u iid m db).2.cardLabels = db.cardLabels
    ∧ (createLabelsAux names i ec b u iid m db).2.checklists = db.checklists
    ∧ (createLabelsAux names i ec b u iid m db).2.checklistItems = db.checklistItems
    ∧ (createLabelsAux names i ec b u iid m db).2.activities = db.activities
    ∧ (createLabelsAux names i ec b u iid m db).2.imports = db.imports := by
  intro names
  induction names with
  | nil => intro i m db; simp [createLabelsAux]
  | cons nm rest ih =>
    intro i m db
    rw [createLabelsAux]
    exact ih (i + 1) _ _

theorem createLabelsAux_labels_mono (ec b : Nat) (u : String) (iid : Nat) :
    ∀ (names : List String) (i : Nat) (m : List (String × Nat)) (db : DB) (r : LabelRow),
    r ∈ db.labels → r ∈ (createLabelsAux names i ec b u iid m db).2.labels := by
  intro names
  induction names with
  | nil => intro i m db r h; simpa [createLabelsAux] using h
  | cons nm rest ih =>
    intro i m db r h
    rw [createLabelsAux]
    exact ih (i + 1) _ _ r (by simp [DB.insertLabel]; exact Or.inl h)

theorem createLabelsAux_labels_mem (ec b : Nat) (u : String) (iid : Nat) :
    ∀ (names : List String) (i : Nat) (m : List (String × Nat)) (db : DB) (r : LabelRow),
    r ∈ (createLabelsAux names i ec b u iid m db).2.labels →
    r ∈ db.labels ∨ (r.name ∈ names ∧ r.boardId = b) := by
  intro names
  induction names with
  | nil => intro i m db r h; exact Or.inl (by simpa [createLabelsAux] using h)
  | cons nm rest ih =>
    intro i m db r h
    rw [createLabelsAux] at h
    rcases ih (i + 1) _ _ r h with h2 | ⟨h2, h3⟩
    · simp [DB.insertLabel] at h2
      rcases h2 with h2 | h2
      · exact Or.inl h2
      · exact Or.inr ⟨by simp [h2], by simp [h2]⟩
    · exact Or.inr ⟨List.mem_cons_of_mem nm h2, h3⟩

theorem createLabelsAux_get (ec b : Nat) (u : String) (iid : Nat) :
    ∀ (names : List String) (i : Nat) (m : List (String × Nat)) (db : DB) (k : String) (v : Nat),
    mapGet (createLabelsAux names i ec b u iid m db).1 k = some v →
    mapGet m k = some v
    ∨ (∃ nm ∈ names, k = jsLower nm
        ∧ ∃ r ∈ (createLabelsAux names i ec b u iid m db).2.labels, r.id = v ∧ r.name = nm) := by
  intro names
  induction names with
  | nil => intro i m db k v h; exact Or.inl (by simpa [createLabelsAux] using h)
  | cons nm rest ih =>
    intro i m db k v h
    rw [createLabelsAux] at h
    rcases ih (i + 1) _ _ k v h with h2 | ⟨nm2, hnm2, hk, r, hr, hrv, hrn⟩
    · rw [mapGet_mapSet_eq] at h2
      by_cases hk : jsLower nm = k
      · rw [if_pos (by simp [hk])] at h2
        refine Or.inr ⟨nm, List.mem_cons_self nm rest, hk.symm,
          ⟨(db.insertLabel nm (colourFor ec i) b u iid).1, nm, colourFor ec i, b, u, some iid, false⟩,
          ?_, Option.some.inj h2, rfl⟩
        rw [createLabelsAux]
        exact createLabelsAux_labels_mono ec b u iid rest (i + 1) _ _ _
          (by simp [DB.insertLabel])
      · rw [if_neg (by simp [hk])] at h2
        exact Or.inl h2
    · exact Or.inr ⟨nm2, List.mem_cons_of_mem nm hnm2, hk, r, by rw [createLabelsAux]; exact hr, hrv, hrn⟩

theorem createLabelsAux_isSome (ec b : Nat) (u : String) (iid : Nat) :
    ∀ (names : List String) (i : Nat) (m : List (String × Nat)) (db : DB) (k : String),
    ((mapGet m k).isSome = true ∨ ∃ nm ∈ names, k = jsLower nm) →
    (mapGet (createLabelsAux names i ec b u iid m db).1 k).isSome = true := by
  intro names
  induction names with
  | nil =>
    intro i m db k h
    rcases h with h | ⟨nm, hnm, _⟩
    · simpa [createLabelsAux] using h
    · simp at hnm
  | cons nm rest ih =>
    intro i m db k h
    rw [createLabelsAux]
    rcases h with h | ⟨nm2, hnm2, hk⟩
    · exact ih (i + 1) _ _ k (Or.inl (mapGet_mapSet_isSome m (jsLower nm) k _ h))
    · rcases List.mem_cons.mp hnm2 with rfl | hnm2
      · refine ih (i + 1) _ _ k (Or.inl ?_)
        rw [mapGet_mapSet_eq, if_pos (by simp [hk])]
        simp
      · exact ih (i + 1) _ _ k (Or.inr ⟨nm2, hnm2, hk⟩)


theorem setAdd_mem (s : List String) (x y : String) :
    y ∈ setAdd s x ↔ y ∈ s ∨ y = x := by
  by_cases h : s.contains x
  · simp only [setAdd, h, if_true]
    constructor
    · exact Or.inl
    · rintro (h2 | rfl)
      · exact h2
      · exact List.mem_of_elem_eq_true h
  · simp only [setAdd]
    rw [if_neg h]
    simp [or_comm]

theorem addCardLabels_mono : ∀ (labels : List String) (acc : List String) (x : String),
    x ∈ acc → x ∈ addCardLabels acc labels := by
  intro labels
  induction labels with
  | nil => intro acc x h; simpa [addCardLabels] using h
  | cons l rest ih =>
    intro acc x h
    rw [addCardLabels]
    by_cases hl : jsTrim l == ""
    · simp only [hl, if_true]
      exact ih acc x h
    · rw [Bool.not_eq_true] at hl
      simp only [hl, Bool.false_eq_true, if_false]
      exact ih _ x ((setAdd_mem acc (jsTrim l) x).mpr (Or.inl h))

theorem addCardLabels_mem : ∀ (labels : List String) (acc : List String) (x : String),
    x ∈ addCardLabels acc labels →
    x ∈ acc ∨ ∃ y ∈ labels, jsTrim y ≠ "" ∧ x = jsTrim y := by
  intro labels
  induction labels with
  | nil => intro acc x h; exact Or.inl (by simpa [addCardLabels] using h)
  | cons l rest ih =>
    intro acc x h
    rw [addCardLabels] at h
    by_cases hl : jsTrim l == ""
    · rw [if_pos hl] at h
      rcases ih acc x h with h2 | ⟨y, hy, h3⟩
      · exact Or.inl h2
      · exact Or.inr ⟨y, List.mem_cons_of_mem l hy, h3⟩
    · rw [Bool.not_eq_true] at hl
      rw [if_neg (by simp [hl])] at h
      rcases ih _ x h with h2 | ⟨y, hy, h3⟩
      · rcases (setAdd_mem acc (jsTrim l) x).mp h2 with h3 | rfl
        · exact Or.inl h3
        · exact Or.inr ⟨l, List.mem_cons_self l rest, by simpa using hl, rfl⟩
      · exact Or.inr ⟨y, List.mem_cons_of_mem l hy, h3⟩

theorem addCardLabels_mem_of : ∀ (labels : List String) (acc : List String) (y : String),
    y ∈ labels → jsTrim y ≠ "" → jsTrim y ∈ addCardLabels acc labels := by
  intro labels
  induction labels with
  | nil => intro acc y h; simp at h
  | cons l rest ih =>
    intro acc y h hy
    rw [addCardLabels]
    rcases List.mem_cons.mp h with rfl | h2
    · have hb : (jsTrim y == "") = false := by simp [hy]
      rw [hb]
      simp only [Bool.false_eq_true, if_false]
      exact addCardLabels_mono rest _ _ ((setAdd_mem acc (jsTrim y) (jsTrim y)).mpr (Or.inr rfl))
    · by_cases hl : jsTrim l == ""
      · rw [if_pos hl]; exact ih acc y h2 hy
      · rw [Bool.not_eq_true] at hl
        rw [if_neg (by simp [hl])]
        exact ih _ y h2 hy

theorem addListLabels_mono : ∀ (cards : List CardData) (acc : List String) (x : String),
    x ∈ acc → x ∈ addListLabels acc cards := by
  intro cards
  induction cards with
  | nil => intro acc x h; simpa [addListLabels] using h
  | cons c rest ih =>
    intro acc x h
    rw [addListLabels]
    exact ih _ x (addCardLabels_mono c.labels acc x h)

theorem addListLabels_mem : ∀ (cards : List CardData) (acc : List String) (x : String),
    x ∈ addListLabels acc cards →
    x ∈ acc ∨ ∃ c ∈ cards, ∃ y ∈ c.labels, jsTrim y ≠ "" ∧ x = jsTrim y := by
  intro cards
  induction cards with
  | nil => intro acc x h; exact Or.inl (by simpa [addListLabels] using h)
  | cons c rest ih =>
    intro acc x h
    rw [addListLabels] at h
    rcases ih _ x h with h2 | ⟨c2, hc2, hrest⟩
    · rcases addCardLabels_mem c.labels acc x h2 with h3 | ⟨y, hy, h4⟩
      · exact Or.inl h3
      · exact Or.inr ⟨c, List.mem_cons_self c rest, y, hy, h4⟩
    · exact Or.inr ⟨c2, List.mem_cons_of_mem c hc2, hrest⟩

theorem addListLabels_mem_of : ∀ (cards : List CardData) (acc : List String) (c : CardData) (y : String),
    c ∈ cards → y ∈ c.labels → jsTrim y ≠ "" → jsTrim y ∈ addListLabels acc cards := by
  intro cards
  induction cards with
  | nil => intro acc c y h; simp at h
  | cons c2 rest ih =>
    intro acc c y h hy hyt
    rw [addListLabels]
    rcases List.mem_cons.mp h with rfl | h2
    · exact addListLabels_mono rest _ _ (addCardLabels_mem_of c.labels acc y hy hyt)
    · exact ih _ c y h2 hy hyt

theorem collectAux_mem : ∀ (ls : List ListData) (acc : List String) (x : String),
    x ∈ collectAux acc ls →
    x ∈ acc ∨ ∃ e ∈ ls, ∃ c ∈ e.cards, ∃ y ∈ c.labels, jsTrim y ≠ "" ∧ x = jsTrim y := by
  intro ls
  induction ls with
  | nil => intro acc x h; exact Or.inl (by simpa [collectAux] using h)
  | cons e rest ih =>
    intro acc x h
    rw [collectAux] at h
    rcases ih _ x h with h2 | ⟨e2, he2, hrest⟩
    · rcases addListLabels_mem e.cards acc x h2 with h3 | ⟨c, hc, hrest⟩
      · exact Or.inl h3
      · exact Or.inr ⟨e, List.mem_cons_self e rest, c, hc, hrest⟩
    · exact Or.inr ⟨e2, List.mem_cons_of_mem e he2, hrest⟩

theorem collectAux_mono : ∀ (ls : List ListData) (acc : List String) (x : String),
    x ∈ acc → x ∈ collectAux acc ls := by
  intro ls
  induction ls with
  | nil => intro acc x h; simpa [collectAux] using h
  | cons e rest ih =>
    intro acc x h
    rw [collectAux]
    exact ih _ x (addListLabels_mono e.cards acc x h)

theorem collectAux_mem_of : ∀ (ls : List ListData) (acc : List String) (e : ListData)
    (c : CardData) (y : String),
    e ∈ ls → c ∈ e.cards → y ∈ c.labels → jsTrim y ≠ "" → jsTrim y ∈ collectAux acc ls := by
  intro ls
  induction ls with
  | nil => intro acc e c y h; simp at h
  | cons e2 rest ih =>
    intro acc e c y h hc hy hyt
    rw [collectAux]
    rcases List.mem_cons.mp h with rfl | h2
    · exact collectAux_mono rest _ _ (addListLabels_mem_of e.cards acc c y hc hy hyt)
    · exact ih _ e c y h2 hc hy hyt

theorem collectLabelNames_mem (ls : List ListData) (x : String)
    (h : x ∈ collectLabelNames ls) :
    ∃ e ∈ ls, ∃ c ∈ e.cards, ∃ y ∈ c.labels, jsTrim y ≠ "" ∧ x = jsTrim y := by
  rcases collectAux_mem ls [] x h with h2 | h2
  · simp at h2
  · exact h2

theorem collectLabelNames_mem_of (ls : List ListData) (e : ListData) (c : CardData) (y : String)
    (h : e ∈ ls) (hc : c ∈ e.cards) (hy : y ∈ c.labels) (hyt : jsTrim y ≠ "") :
    jsTrim y ∈ collectLabelNames ls :=
  collectAux_mem_of ls [] e c y h hc hy hyt

theorem foldl_setAdd_mem : ∀ (xs acc : List String) (x : String),
    x ∈ xs.foldl setAdd acc → x ∈ acc ∨ x ∈ xs := by
  intro xs
  induction xs with
  | nil => intro acc x h; exact Or.inl (by simpa using h)
  | cons a rest ih =>
    intro acc x h
    rw [List.foldl_cons] at h
    rcases ih _ x h with h2 | h2
    · rcases (setAdd_mem acc a x).mp h2 with h3 | heq
      · exact Or.inl h3
      · exact Or.inr (by rw [heq]; exact List.mem_cons_self a rest)
    · exact Or.inr (List.mem_cons_of_mem a h2)

theorem uniqueLabelsOf_mem (c : CardData) (nm : String) (h : nm ∈ uniqueLabelsOf c) :
    ∃ y ∈ c.labels, jsTrim y ≠ "" ∧ nm = jsLower y := by
  rcases foldl_setAdd_mem _ [] nm h with h2 | h2
  · simp at h2
  · obtain ⟨y, hy, hnm⟩ := List.mem_map.mp h2
    obtain ⟨hy2, hy3⟩ := List.mem_filter.mp hy
    exact ⟨y, hy2, by simpa using hy3, hnm.symm⟩


theorem importSetup_ctx (b : Nat) (u : String) (ls : List ListData) (db : DB) :
    (importSetup b u ls db).1.boardId = b ∧ (importSetup b u ls db).1.userId = u
    ∧ (importSetup b u ls db).1.importId = db.nextId := by
  simp [importSetup, DB.insertImport]

theorem importSetup_frame (b : Nat) (u : String) (ls : List ListData) (db : DB) :
    (importSetup b u ls db).2.db.lists = db.lists
    ∧ (importSetup b u ls db).2.db.cards = db.cards
    ∧ (importSetup b u ls db).2.db.cardLabels = db.cardLabels
    ∧ (importSetup b u ls db).2.db.checklists = db.checklists
    ∧ (importSetup b u ls db).2.db.checklistItems = db.checklistItems
    ∧ (importSetup b u ls db).2.db.imports = db.imports ++ [⟨db.nextId, "json", u, "pending"⟩]
    ∧ (importSetup b u ls db).2.existingLists
        = (db.lists.filter (fun l => l.boardId == b && !l.deleted)).map (fun l => (l.id, l.name))
    ∧ (importSetup b u ls db).2.warnings = []
    ∧ (importSetup b u ls db).2.cardsCreated = 0 := by
  simp [importSetup, createLabelsAux_frame, DB.insertImport]

theorem importSetup_labels_mem (b : Nat) (u : String) (ls : List ListData) (db : DB) :
    ∀ r ∈ (importSetup b u ls db).2.db.labels,
      r ∈ db.labels ∨ (r.name ∈ collectLabelNames ls ∧ r.boardId = b) := by
  intro r hr
  simp only [importSetup] at hr
  rcases createLabelsAux_labels_mem _ _ _ _ _ _ _ _ r hr with h2 | ⟨h2, h3⟩
  · exact Or.inl (by simpa [DB.insertImport] using h2)
  · exact Or.inr ⟨(List.mem_filter.mp h2).1, h3⟩

theorem importSetup_labelMap_get (b : Nat) (u : String) (ls : List ListData) (db : DB)
    (k : String) (v : Nat) (h : mapGet (importSetup b u ls db).1.labelMap k = some v) :
    ∃ r ∈ (importSetup b u ls db).2.db.labels, r.id = v ∧ jsLower r.name = k
      ∧ ((r ∈ db.labels ∧ r.boardId = b ∧ r.deleted = false) ∨ r.name ∈ collectLabelNames ls) := by
  simp only [importSetup] at h ⊢
  rcases createLabelsAux_get _ _ _ _ _ _ _ _ k v h with h2 | ⟨nm, hnm, hk, r, hr, hrv, hrn⟩
  · obtain ⟨r, hr, hrv, hrk⟩ := buildLabelMap_get _ k v h2
    have hr2 := List.mem_filter.mp hr
    refine ⟨r, createLabelsAux_labels_mono _ _ _ _ _ _ _ _ r hr2.1, hrv, hrk, Or.inl ⟨?_, ?_, ?_⟩⟩
    · simpa [DB.insertImport] using hr2.1
    · have := hr2.2
      simp at this
      exact this.1
    · have := hr2.2
      simp at this
      exact this.2
  · exact ⟨r, hr, hrv, by rw [hrn]; exact hk.symm,
      Or.inr (by rw [hrn]; exact (List.mem_filter.mp hnm).1)⟩

theorem labelsToCreate_covers (names : List String) (m0 : List (String × Nat)) (ec b : Nat)
    (u : String) (iid : Nat) (db : DB) (nm : String) (h : nm ∈ names) :
    (mapGet (createLabelsAux (labelsToCreate names m0) 0 ec b u iid m0 db).1 (jsLower nm)).isSome
      = true := by
  by_cases hm : (mapGet m0 (jsLower nm)).isSome
  · exact createLabelsAux_isSome ec b u iid _ 0 m0 db (jsLower nm) (Or.inl hm)
  · refine createLabelsAux_isSome ec b u iid _ 0 m0 db (jsLower nm) (Or.inr ⟨nm, ?_, rfl⟩)
    refine List.mem_filter.mpr ⟨h, ?_⟩
    rw [Bool.not_eq_true] at hm
    simp [mapHas, hm]

theorem importSetup_labelMap_covers (b : Nat) (u : String) (ls : List ListData) (db : DB)
    (nm : String) (h : nm ∈ collectLabelNames ls) :
    (mapGet (importSetup b u ls db).1.labelMap (jsLower nm)).isSome = true := by
  simp only [importSetup]
  exact labelsToCreate_covers _ _ _ _ _ _ _ nm h

theorem labelsToCreate_nil (names : List String) (m0 : List (String × Nat))
    (h : ∀ nm ∈ names, mapHas m0 (jsLower nm) = true) :
    labelsToCreate names m0 = [] := by
  induction names with
  | nil => rfl
  | cons nm rest ih =>
    rw [labelsToCreate, List.filter_cons]
    have := h nm (List.mem_cons_self nm rest)
    simp only [this, Bool.not_true, Bool.false_eq_true, if_false]
    exact ih (fun nm2 h2 => h nm2 (List.mem_cons_of_mem nm h2))

theorem importSetup_covered (b : Nat) (u : String) (ls : List ListData) (db : DB)
    (h : ∀ nm ∈ collectLabelNames ls,
      ∃ r ∈ db.labels, r.boardId = b ∧ r.deleted = false ∧ jsLower r.name = jsLower nm) :
    (importSetup b u ls db).2.db.labels = db.labels
    ∧ (importSetup b u ls db).1.labelMap
        = buildLabelMap (db.labels.filter (fun l => l.boardId == b && !l.deleted)) := by
  simp only [importSetup]
  have hcov : ∀ nm ∈ collectLabelNames ls,
      mapHas (buildLabelMap ((db.insertImport u).2.labels.filter
        (fun l => l.boardId == b && !l.deleted))) (jsLower nm) = true := by
    intro nm hnm
    obtain ⟨r, hr, hb2, hd, hk⟩ := h nm hnm
    have hmem : r ∈ (db.insertImport u).2.labels.filter (fun l => l.boardId == b && !l.deleted) := by
      refine List.mem_filter.mpr ⟨by simpa [DB.insertImport] using hr, by simp [hb2, hd]⟩
    rw [mapHas]
    exact buildLabelMap_isSome _ _ ⟨r, hmem, hk⟩
  rw [labelsToCreate_nil _ _ hcov]
  exact ⟨by simp [createLabelsAux, DB.insertImport], by simp [createLabelsAux, DB.insertImport]⟩

theorem setImportStatus_frame (db : DB) (iid : Nat) (st : String) :
    (db.setImportStatus iid st).lists = db.lists
    ∧ (db.setImportStatus iid st).labels = db.labels
    ∧ (db.setImportStatus iid st).cards = db.cards
    ∧ (db.setImportStatus iid st).cardLabels = db.cardLabels
    ∧ (db.setImportStatus iid st).checklists = db.checklists
    ∧ (db.setImportStatus iid st).checklistItems = db.checklistItems := by
  simp [DB.setImportStatus]

theorem setImportStatus_statuses (db2 : DB) (rows : List ImportRow) (iid : Nat)
    (src cb st0 st : String)
    (him : db2.imports = rows ++ [⟨iid, src, cb, st0⟩]) (h : ∀ r ∈ rows, r.id ≠ iid) :
    (db2.setImportStatus iid st).imports.map (fun r => r.status)
      = rows.map (fun r => r.status) ++ [st] := by
  rw [DB.setImportStatus]
  simp only [him]
  rw [List.map_append, List.map_append]
  congr 1
  · rw [List.map_map]
    apply List.map_congr_left
    intro r hr
    simp [h r hr]
  · simp


/-- C9 (confirmed): with the list and card creations healthy but the
checklist and checklist-item creations failing arbitrarily (`o.checklistOk`
and `o.itemOk` are unconstrained), the import still returns a success
result counting every payload card, the ImportBatch is marked success, all
cards of all lists are written, and the checklist/item tables grow by
exactly the creations the oracle let succeed — a failed checklist is
skipped together with its items, a failed item alone is skipped, and
processing continues. -/
theorem c9_checklist_failures_skipped_import_succeeds (o : Oracle) (b : Nat) (u : String) (pd : Option Json) (db : DB) (ls : List ListData)
    (hParse : parseAndValidate pd = Except.ok ls)
    (hNames : ∀ e ∈ ls, (jsTrim e.listName == "") = false)
    (hio : o.importCreateOk = true)
    (hl : ∀ k, o.listCreateOk k = true)
    (hc : ∀ k, o.cardBulkOk k = true)
    (hWf : ∀ r ∈ db.imports, r.id ≠ db.nextId) :
    (importCards o b u pd db).1 = Except.ok ⟨totalCards ls, ls.length, listsWarnSpec o ls 0⟩
    ∧ (importCards o b u pd db).2.imports.map (fun r => r.status)
        = db.imports.map (fun r => r.status) ++ ["success"]
    ∧ (importCards o b u pd db).2.cards.length = db.cards.length + totalCards ls
    ∧ (importCards o b u pd db).2.checklists.length = db.checklists.length + listsClOkCount o ls 0
    ∧ (importCards o b u pd db).2.checklistItems.length
        = db.checklistItems.length + listsItemCount o ls 0 := by
  have himp : importCards o b u pd db = importValidated o b u ls db := by
    rw [importCards, hParse]
  rw [himp, importValidated]
  simp only [hio, Bool.not_true, Bool.false_eq_true, if_false]
  obtain ⟨m0, m1, m2, m3, m4, m5, m6, m7⟩ :=
    processLists_ok o (importSetup b u ls db).1 ls 0 (importSetup b u ls db).2 hNames
      (fun k _ => ⟨by rw [Nat.zero_add]; exact hl k, by rw [Nat.zero_add]; exact hc k⟩)
  have hpair : processLists o (importSetup b u ls db).1 ls 0 (importSetup b u ls db).2
      = (none, (processLists o (importSetup b u ls db).1 ls 0 (importSetup b u ls db).2).2) :=
    Prod.ext m0 rfl
  rw [hpair]
  simp only
  obtain ⟨f1, f2, f3, f4, f5, f6, f7, f8, f9⟩ := importSetup_frame b u ls db
  obtain ⟨g1, g2, g3⟩ := importSetup_ctx b u ls db
  obtain ⟨s1, s2, s3, s4, s5, s6⟩ :=
    setImportStatus_frame ((processLists o (importSetup b u ls db).1 ls 0 (importSetup b u ls db).2).2.db)
      (importSetup b u ls db).1.importId "success"
  refine ⟨?_, ?_, ?_, ?_, ?_⟩
  · rw [m4, m7, f8, f9]
    simp
  · rw [g3]
    refine setImportStatus_statuses _ db.imports db.nextId "json" u "pending" "success" ?_ hWf
    rw [m2, f6]
  · rw [s3, m3, f2]
  · rw [s5, m5, f4]
  · rw [s6, m6, f5]


theorem importCards_db_cases (o : Oracle) (b : Nat) (u : String) (pd : Option Json) (db : DB)
    (ls : List ListData) (hParse : parseAndValidate pd = Except.ok ls)
    (hio : o.importCreateOk = true) :
    ∃ st, (importCards o b u pd db).2
      = ((processLists o (importSetup b u ls db).1 ls 0 (importSetup b u ls db).2).2.db).setImportStatus
          (importSetup b u ls db).1.importId st := by
  have himp : importCards o b u pd db = importValidated o b u ls db := by
    rw [importCards, hParse]
  rw [himp, importValidated]
  simp only [hio, Bool.not_true, Bool.false_eq_true, if_false]
  cases hp : processLists o (importSetup b u ls db).1 ls 0 (importSetup b u ls db).2 with
  | mk fst snd =>
    cases fst with
    | none => exact ⟨"success", rfl⟩
    | some e2 => exact ⟨"failed", rfl⟩

/-- C6 (confirmed): every list row present after an import call was either
already on the board or stems from a payload entry whose cards array is
non-empty and carries that entry's name — a payload entry with zero cards
never produces a list row, even when no list of that name exists (the skip
at json-import.ts lines 364–368 precedes both the lookup and the create). -/
theorem c6_empty_list_entries_create_no_lists (o : Oracle) (b : Nat) (u : String) (pd : Option Json) (db : DB)
    (ls : List ListData) (hParse : parseAndValidate pd = Except.ok ls) :
    ∀ r ∈ (importCards o b u pd db).2.lists,
      r ∈ db.lists ∨ ∃ e ∈ ls, e.cards ≠ [] ∧ r.name = e.listName ∧ r.boardId = b := by
  by_cases hio : o.importCreateOk
  · obtain ⟨st, hdb⟩ := importCards_db_cases o b u pd db ls hParse hio
    rw [hdb]
    intro r hr
    rw [(setImportStatus_frame _ _ _).1] at hr
    obtain ⟨_, _, hmem, _, _⟩ :=
      processLists_any o (importSetup b u ls db).1 ls 0 (importSetup b u ls db).2
    rcases hmem r hr with h | ⟨e, he, h1, h2, h3, _⟩
    · rw [(importSetup_frame b u ls db).1] at h
      exact Or.inl h
    · exact Or.inr ⟨e, he, h3, h1, by rw [h2, (importSetup_ctx b u ls db).1]⟩
  · have himp : importCards o b u pd db = importValidated o b u ls db := by
      rw [importCards, hParse]
    rw [Bool.not_eq_true] at hio
    rw [himp, importValidated]
    simp only [hio, Bool.not_true, Bool.not_false, if_true]
    exact fun r hr => Or.inl hr

/-- C8 (confirmed): every card row present after an import call, over any
starting store (in particular no matter how many cards already sit in the
target list), either predates the call or corresponds to position k of some
payload list's card array and carries index exactly k — the index is the
payload position, never offset against pre-existing cards, so collisions
with their indexes are possible and are not adjusted. -/
theorem c8_card_index_is_payload_position (o : Oracle) (b : Nat) (u : String) (pd : Option Json) (db : DB)
    (ls : List ListData) (hParse : parseAndValidate pd = Except.ok ls) :
    ∀ r ∈ (importCards o b u pd db).2.cards,
      r ∈ db.cards ∨ ∃ e ∈ ls, ∃ k c, e.cards.get? k = some c ∧ r.index = k
        ∧ r.title = jsTake c.title 255 ∧ r.description = jsTake c.description 10000 := by
  by_cases hio : o.importCreateOk
  · obtain ⟨st, hdb⟩ := importCards_db_cases o b u pd db ls hParse hio
    rw [hdb]
    intro r hr
    rw [(setImportStatus_frame _ _ _).2.2.1] at hr
    obtain ⟨_, _, _, hmem, _⟩ :=
      processLists_any o (importSetup b u ls db).1 ls 0 (importSetup b u ls db).2
    rcases hmem r hr with h | h
    · rw [(importSetup_frame b u ls db).2.1] at h
      exact Or.inl h
    · exact Or.inr h
  · have himp : importCards o b u pd db = importValidated o b u ls db := by
      rw [importCards, hParse]
    rw [Bool.not_eq_true] at hio
    rw [himp, importValidated]
    simp only [hio, Bool.not_true, Bool.not_false, if_true]
    exact fun r hr => Or.inl hr


theorem processList_lists_mono (o : Oracle) (ctx : ImportCtx) (li : Nat) (e : ListData)
    (s : LoopState) (r : ListRow) (h : r ∈ s.db.lists) :
    r ∈ (processList o ctx li e s).2.db.lists := by
  by_cases hname : (jsTrim e.listName == "") = true
  · simpa [processList, hname] using h
  · rw [Bool.not_eq_true] at hname
    by_cases hemp : e.cards.isEmpty
    · simpa [processList, hname, hemp] using h
    · have hemp2 : e.cards.isEmpty = false := by rw [Bool.not_eq_true] at hemp; exact hemp
      rcases resolveList_cases o li ctx e.listName s with ⟨p, hf, hres⟩ | ⟨hf, _, hres⟩ | ⟨hf, hl2, hres⟩
      · by_cases hc : o.cardBulkOk li
        · obtain ⟨ids, rows, clRows, itRows, N, heqW, _⟩ := processListWrites_shape o ctx li e p.1 s
          simp only [processList, hname, Bool.false_eq_true, if_false, hemp2, hres, hc, if_true]
          rw [heqW]
          exact h
        · rw [Bool.not_eq_true] at hc
          simpa [processList, hname, hemp2, hres, hc] using h
      · by_cases hc : o.cardBulkOk li
        · obtain ⟨ids, rows, clRows, itRows, N, heqW, _⟩ :=
            processListWrites_shape o ctx li e s.db.nextId
              ⟨{ s.db with lists := s.db.lists ++ [⟨s.db.nextId, e.listName, ctx.boardId,
                  (s.db.lists.filter (fun l => l.boardId == ctx.boardId && !l.deleted)).length,
                  ctx.userId, some ctx.importId, false⟩], nextId := s.db.nextId + 1 },
               s.existingLists ++ [(s.db.nextId, e.listName)], s.warnings, s.cardsCreated⟩
          simp only [processList, hname, Bool.false_eq_true, if_false, hemp2, hres, hc, if_true]
          rw [heqW]
          simp only
          exact List.mem_append.mpr (Or.inl h)
        · rw [Bool.not_eq_true] at hc
          simp only [processList, hname, Bool.false_eq_true, if_false, hemp2, hres, hc]
          exact List.mem_append.mpr (Or.inl h)
      · simpa [processList, hname, hemp2, hres] using h

theorem processList_labels_frame (o : Oracle) (ctx : ImportCtx) (li : Nat) (e : ListData)
    (s : LoopState) :
    (processList o ctx li e s).2.db.labels = s.db.labels :=
  (processList_any o ctx li e s).1

theorem processLists_lists_mono (o : Oracle) (ctx : ImportCtx) :
    ∀ (es : List ListData) (li : Nat) (s : LoopState) (r : ListRow),
    r ∈ s.db.lists → r ∈ (processLists o ctx es li s).2.db.lists := by
  intro es
  induction es with
  | nil => intro li s r h; simpa [processLists] using h
  | cons e rest ih =>
    intro li s r h
    rw [processLists]
    cases hp : processList o ctx li e s with
    | mk fst snd =>
      have hmem : r ∈ snd.db.lists := by
        have := processList_lists_mono o ctx li e s r h
        rw [hp] at this
        exact this
      cases fst with
      | some err => exact hmem
      | none => exact ih (li + 1) snd r hmem

theorem processList_no_dup_name (o : Oracle) (ctx : ImportCtx) (li : Nat) (e : ListData)
    (s : LoopState) (X : String)
    (hx : ∃ p ∈ s.existingLists, p.2 ≠ "" ∧ jsLower p.2 = jsLower X) :
    (∀ r ∈ (processList o ctx li e s).2.db.lists, r ∈ s.db.lists ∨ jsLower r.name ≠ jsLower X)
    ∧ (∃ p ∈ (processList o ctx li e s).2.existingLists, p.2 ≠ "" ∧ jsLower p.2 = jsLower X) := by
  by_cases hname : (jsTrim e.listName == "") = true
  · simp only [processList, hname, if_true]
    exact ⟨fun r hr => Or.inl hr, hx⟩
  · rw [Bool.not_eq_true] at hname
    by_cases hemp : e.cards.isEmpty
    · simp only [processList, hname, Bool.false_eq_true, if_false, hemp, if_true]
      exact ⟨fun r hr => Or.inl hr, hx⟩
    · have hemp2 : e.cards.isEmpty = false := by rw [Bool.not_eq_true] at hemp; exact hemp
      rcases resolveList_cases o li ctx e.listName s with ⟨p, hf, hres⟩ | ⟨hf, _, hres⟩ | ⟨hf, hl2, hres⟩
      · by_cases hc : o.cardBulkOk li
        · obtain ⟨ids, rows, clRows, itRows, N, heqW, _⟩ := processListWrites_shape o ctx li e p.1 s
          simp only [processList, hname, Bool.false_eq_true, if_false, hemp2, hres, hc, if_true]
          rw [heqW]
          exact ⟨fun r hr => Or.inl hr, hx⟩
        · rw [Bool.not_eq_true] at hc
          simp only [processList, hname, Bool.false_eq_true, if_false, hemp2, hres, hc]
          exact ⟨fun r hr => Or.inl hr, hx⟩
      · have hnodup : jsLower e.listName ≠ jsLower X := by
          intro heq
          obtain ⟨p, hp, hp2, hp3⟩ := hx
          have : findExistingList s.existingLists e.listName ≠ none := by
            intro hnone
            have := List.find?_eq_none.mp hnone p hp
            simp only [findExistingList] at this
            apply this
            simp only [Bool.and_eq_true, bne_iff_ne, ne_eq, beq_iff_eq]
            exact ⟨hp2, by rw [hp3, heq]⟩
          exact this hf
        by_cases hc : o.cardBulkOk li
        · obtain ⟨ids, rows, clRows, itRows, N, heqW, _⟩ :=
            processListWrites_shape o ctx li e s.db.nextId
              ⟨{ s.db with lists := s.db.lists ++ [⟨s.db.nextId, e.listName, ctx.boardId,
                  (s.db.lists.filter (fun l => l.boardId == ctx.boardId && !l.deleted)).length,
                  ctx.userId, some ctx.importId, false⟩], nextId := s.db.nextId + 1 },
               s.existingLists ++ [(s.db.nextId, e.listName)], s.warnings, s.cardsCreated⟩
          simp only [processList, hname, Bool.false_eq_true, if_false, hemp2, hres, hc, if_true]
          rw [heqW]
          simp only
          constructor
          · intro r hr
            rcases List.mem_append.mp hr with hr | hr
            · exact Or.inl hr
            · rcases List.mem_singleton.mp hr with rfl
              exact Or.inr hnodup
          · obtain ⟨p, hp, hrest⟩ := hx
            exact ⟨p, List.mem_append.mpr (Or.inl hp), hrest⟩
        · rw [Bool.not_eq_true] at hc
          simp only [processList, hname, Bool.false_eq_true, if_false, hemp2, hres, hc]
          constructor
          · intro r hr
            rcases List.mem_append.mp hr with hr | hr
            · exact Or.inl hr
            · rcases List.mem_singleton.mp hr with rfl
              exact Or.inr hnodup
          · obtain ⟨p, hp, hrest⟩ := hx
            exact ⟨p, List.mem_append.mpr (Or.inl hp), hrest⟩
      · simp only [processList, hname, Bool.false_eq_true, if_false, hemp2, hres]
        exact ⟨fun r hr => Or.inl hr, hx⟩

theorem processLists_no_dup_name (o : Oracle) (ctx : ImportCtx) :
    ∀ (es : List ListData) (li : Nat) (s : LoopState) (X : String),
    (∃ p ∈ s.existingLists, p.2 ≠ "" ∧ jsLower p.2 = jsLower X) →
    ∀ r ∈ (processLists o ctx es li s).2.db.lists, r ∈ s.db.lists ∨ jsLower r.name ≠ jsLower X := by
  intro es
  induction es with
  | nil => intro li s X hx r hr; exact Or.inl (by simpa [processLists] using hr)
  | cons e rest ih =>
    intro li s X hx r hr
    rw [processLists] at hr
    obtain ⟨hstep, hex⟩ := processList_no_dup_name o ctx li e s X hx
    cases hp : processList o ctx li e s with
    | mk fst snd =>
      rw [hp] at hstep hex hr
      cases fst with
      | some err => exact hstep r hr
      | none =>
        rcases ih (li + 1) snd X hex r hr with h | h
        · exact hstep r h
        · exact Or.inr h


theorem importSetup_no_dup_label (b : Nat) (u : String) (ls : List ListData) (db : DB) (Y : String)
    (hex : ∃ r ∈ db.labels, r.boardId = b ∧ r.deleted = false ∧ jsLower r.name = jsLower Y) :
    ∀ r ∈ (importSetup b u ls db).2.db.labels, r ∈ db.labels ∨ jsLower r.name ≠ jsLower Y := by
  intro r hr
  simp only [importSetup] at hr
  rcases createLabelsAux_labels_mem _ _ _ _ _ _ _ _ r hr with h2 | ⟨h2, _⟩
  · exact Or.inl (by simpa [DB.insertImport] using h2)
  · right
    intro heq
    have h3 := List.mem_filter.mp h2
    have hhas : mapHas (buildLabelMap ((db.insertImport u).2.labels.filter
        (fun l => l.boardId == b && !l.deleted))) (jsLower r.name) = true := by
      obtain ⟨r2, hr2, hb2, hd2, hk2⟩ := hex
      rw [mapHas]
      refine buildLabelMap_isSome _ _ ⟨r2, ?_, by rw [hk2, ← heq]⟩
      exact List.mem_filter.mpr ⟨by simpa [DB.insertImport] using hr2, by simp [hb2, hd2]⟩
    have h4 := h3.2
    rw [hhas] at h4
    simp at h4

theorem importSetup_labels_mono (b : Nat) (u : String) (ls : List ListData) (db : DB)
    (r : LabelRow) (h : r ∈ db.labels) : r ∈ (importSetup b u ls db).2.db.labels := by
  simp only [importSetup]
  exact createLabelsAux_labels_mono _ _ _ _ _ _ _ _ r (by simpa [DB.insertImport] using h)

/-- C7 (confirmed): if the target board already has a non-deleted list whose
name matches X case-insensitively, then after the import every list row
either predates the call or differs from X in lowercased name (no second
list for X is created) while all pre-existing list rows survive unchanged;
and if the board already has a non-deleted label matching Y
case-insensitively, no label row case-matching Y is created, every
pre-existing label row survives byte-for-byte (so its colour is unchanged),
and every association row written by the call references a label row of the
final store which, whenever it case-matches Y, is one of the pre-existing
rows — the existing label id is reused. -/
theorem c7_case_insensitive_reuse_of_lists_and_labels (o : Oracle) (b : Nat) (u : String) (pd : Option Json) (db : DB)
    (ls : List ListData) (X Y : String)
    (hParse : parseAndValidate pd = Except.ok ls)
    (hio : o.importCreateOk = true)
    (hexList : ∃ r ∈ db.lists, r.boardId = b ∧ r.deleted = false ∧ r.name ≠ ""
      ∧ jsLower r.name = jsLower X)
    (hexLabel : ∃ r ∈ db.labels, r.boardId = b ∧ r.deleted = false ∧ jsLower r.name = jsLower Y) :
    (∀ r ∈ (importCards o b u pd db).2.lists, r ∈ db.lists ∨ jsLower r.name ≠ jsLower X)
    ∧ (∀ r ∈ db.lists, r ∈ (importCards o b u pd db).2.lists)
    ∧ (∀ r ∈ (importCards o b u pd db).2.labels, r ∈ db.labels ∨ jsLower r.name ≠ jsLower Y)
    ∧ (∀ r ∈ db.labels, r ∈ (importCards o b u pd db).2.labels)
    ∧ (∀ rel ∈ (importCards o b u pd db).2.cardLabels, rel ∈ db.cardLabels
        ∨ ∃ r ∈ (importCards o b u pd db).2.labels, r.id = rel.labelId
            ∧ (jsLower r.name = jsLower Y → r ∈ db.labels)) := by
  obtain ⟨st, hdb⟩ := importCards_db_cases o b u pd db ls hParse hio
  obtain ⟨f1, f2, f3, f4, f5, f6, f7, f8, f9⟩ := importSetup_frame b u ls db
  obtain ⟨a1, a2, a3, a4, a5⟩ :=
    processLists_any o (importSetup b u ls db).1 ls 0 (importSetup b u ls db).2
  obtain ⟨s1, s2, s3, s4, s5, s6⟩ :=
    setImportStatus_frame ((processLists o (importSetup b u ls db).1 ls 0 (importSetup b u ls db).2).2.db)
      (importSetup b u ls db).1.importId st
  have hlabels : (importCards o b u pd db).2.labels = (importSetup b u ls db).2.db.labels := by
    rw [hdb, s2, a1]
  have hlists0 : (importCards o b u pd db).2.lists
      = (processLists o (importSetup b u ls db).1 ls 0 (importSetup b u ls db).2).2.db.lists := by
    rw [hdb, s1]
  refine ⟨?_, ?_, ?_, ?_, ?_⟩
  · intro r hr
    rw [hlists0] at hr
    obtain ⟨r0, hr0, hb0, hd0, hn0, hk0⟩ := hexList
    have hx : ∃ p ∈ (importSetup b u ls db).2.existingLists, p.2 ≠ "" ∧ jsLower p.2 = jsLower X := by
      rw [f7]
      refine ⟨(r0.id, r0.name), List.mem_map_of_mem _ ?_, hn0, hk0⟩
      exact List.mem_filter.mpr ⟨hr0, by simp [hb0, hd0]⟩
    rcases processLists_no_dup_name o (importSetup b u ls db).1 ls 0 (importSetup b u ls db).2 X hx
        r hr with h | h
    · rw [f1] at h
      exact Or.inl h
    · exact Or.inr h
  · intro r hr
    rw [hlists0]
    exact processLists_lists_mono o (importSetup b u ls db).1 ls 0 (importSetup b u ls db).2 r
      (by rw [f1]; exact hr)
  · intro r hr
    rw [hlabels] at hr
    exact importSetup_no_dup_label b u ls db Y hexLabel r hr
  · intro r hr
    rw [hlabels]
    exact importSetup_labels_mono b u ls db r hr
  · intro rel hr
    rw [hdb, s4] at hr
    rcases a5 rel hr with h | ⟨e, he, c, hc, nm, hnm, hget⟩
    · rw [f3] at h
      exact Or.inl h
    · obtain ⟨r, hrmem, hrid, hrk, _⟩ :=
        importSetup_labelMap_get b u ls db (jsLower nm) rel.labelId hget
      refine Or.inr ⟨r, by rw [hlabels]; exact hrmem, hrid, fun hY => ?_⟩
      rcases importSetup_no_dup_label b u ls db Y hexLabel r hrmem with h2 | h2
      · exact h2
      · exact absurd hY h2


/-- C4 (confirmed): when the card bulk insert of the N-th payload list
(0-based n, here n ≥ 1 is not even needed) comes back empty while every
earlier list processed cleanly, the import aborts: the returned error is the
original message re-raised with the added "Import failed: " context, the
final store equals the state after processing only the first n+1 lists with
the ImportBatch marked failed (so no write is attempted for any list after
the N-th), the ledger's status list gains exactly one "failed" entry, the
cards table equals exactly what the first n lists committed (persisted, not
rolled back; the failing list contributed none), and the first n lists
indeed processed without error.  The error value carries no warnings: the
accumulated warnings appear in no error outcome by the type of
`importCards`. -/
theorem c4_midway_failure_aborts_and_marks_failed (o : Oracle) (b : Nat) (u : String) (pd : Option Json) (db : DB)
    (ls : List ListData) (n : Nat) (hn : n < ls.length)
    (hParse : parseAndValidate pd = Except.ok ls)
    (hNames : ∀ e ∈ ls, (jsTrim e.listName == "") = false)
    (hio : o.importCreateOk = true)
    (hPref : ∀ k, k < n → o.listCreateOk k = true ∧ o.cardBulkOk k = true)
    (hLn : o.listCreateOk n = true)
    (hFail : o.cardBulkOk n = false)
    (hNE : (ls.get ⟨n, hn⟩).cards ≠ [])
    (hWf : ∀ r ∈ db.imports, r.id ≠ db.nextId) :
    (importCards o b u pd db).1
      = Except.error (ImpErr.internal ("Import failed: Failed to create cards for list \""
          ++ (ls.get ⟨n, hn⟩).listName ++ "\""))
    ∧ (importCards o b u pd db).2
      = ((processLists o (importSetup b u ls db).1 (ls.take (n + 1)) 0
            (importSetup b u ls db).2).2.db).setImportStatus
          (importSetup b u ls db).1.importId "failed"
    ∧ (importCards o b u pd db).2.imports.map (fun r => r.status)
        = db.imports.map (fun r => r.status) ++ ["failed"]
    ∧ (importCards o b u pd db).2.cards
        = (processLists o (importSetup b u ls db).1 (ls.take n) 0
            (importSetup b u ls db).2).2.db.cards
    ∧ (processLists o (importSetup b u ls db).1 (ls.take n) 0 (importSetup b u ls db).2).1
        = none := by
  have hlen : (ls.take n).length = n := by
    rw [List.length_take]
    omega
  obtain ⟨p0, p1, p2, p3, p4, p5, p6, p7⟩ :=
    processLists_ok o (importSetup b u ls db).1 (ls.take n) 0 (importSetup b u ls db).2
      (fun e he => hNames e (List.take_subset n ls he))
      (fun k hk => by
        have hk2 : k < n := by rw [hlen] at hk; exact hk
        exact ⟨by rw [Nat.zero_add]; exact (hPref k hk2).1,
               by rw [Nat.zero_add]; exact (hPref k hk2).2⟩)
  have hne2 : ¬(ls.get ⟨n, hn⟩).cards.isEmpty = true := by
    intro h
    apply hNE
    cases hcc : (ls.get ⟨n, hn⟩).cards with
    | nil => rfl
    | cons a l => rw [hcc] at h; simp [List.isEmpty] at h
  obtain ⟨q0, q1, q2, q3, q4, q5, q6⟩ :=
    processList_cardfail o (importSetup b u ls db).1 n (ls.get ⟨n, hn⟩)
      ((processLists o (importSetup b u ls db).1 (ls.take n) 0 (importSetup b u ls db).2).2)
      (hNames _ (ls.get_mem _ _)) hne2 hLn hFail
  have htake : ls.take (n + 1) = ls.take n ++ [ls.get ⟨n, hn⟩] := by
    rw [List.take_succ, List.getElem?_eq_getElem hn]
    simp [List.get_eq_getElem]
  have happ := processLists_append o (importSetup b u ls db).1 (ls.take (n + 1))
    (ls.drop (n + 1)) 0 (importSetup b u ls db).2
  rw [List.take_append_drop] at happ
  have happ2 := processLists_append o (importSetup b u ls db).1 (ls.take n)
    [ls.get ⟨n, hn⟩] 0 (importSetup b u ls db).2
  rw [← htake] at happ2
  have hpair : processLists o (importSetup b u ls db).1 (ls.take n) 0 (importSetup b u ls db).2
      = (none, (processLists o (importSetup b u ls db).1 (ls.take n) 0 (importSetup b u ls db).2).2) :=
    Prod.ext p0 rfl
  rw [hpair] at happ2
  simp only at happ2
  rw [Nat.zero_add, hlen] at happ2
  have hpair2 : processList o (importSetup b u ls db).1 n (ls.get ⟨n, hn⟩)
      ((processLists o (importSetup b u ls db).1 (ls.take n) 0 (importSetup b u ls db).2).2)
      = (some (ImpErr.internal ("Failed to create cards for list \""
          ++ (ls.get ⟨n, hn⟩).listName ++ "\"")),
         (processList o (importSetup b u ls db).1 n (ls.get ⟨n, hn⟩)
          ((processLists o (importSetup b u ls db).1 (ls.take n) 0 (importSetup b u ls db).2).2)).2) :=
    Prod.ext q0 rfl
  rw [processLists, hpair2] at happ2
  simp only at happ2
  rw [happ2] at happ
  simp only at happ
  have himp : importCards o b u pd db = importValidated o b u ls db := by
    rw [importCards, hParse]
  rw [himp, importValidated]
  simp only [hio, Bool.not_true, Bool.false_eq_true, if_false]
  rw [happ]
  simp only
  obtain ⟨f1, f2, f3, f4, f5, f6, f7, f8, f9⟩ := importSetup_frame b u ls db
  obtain ⟨g1, g2, g3⟩ := importSetup_ctx b u ls db
  refine ⟨?_, by rw [happ2], ?_, ?_, p0⟩
  · simp only [ImpErr.message]
    have hlit : "Import failed: " ++ "Failed to create cards for list \"" =
        "Import failed: Failed to create cards for list \"" := by decide
    rw [← String.append_assoc, ← String.append_assoc, hlit]
  · rw [g3]
    refine setImportStatus_statuses _ db.imports db.nextId "json" u "pending" "failed" ?_ hWf
    rw [q2, p2, f6]
  · rw [(setImportStatus_frame _ _ _).2.2.1, q1]


theorem itemsWarnSpec_nil (ln ct : String) (cj : Nat) :
    ∀ (items : List ChecklistItemData) (k : Nat),
    (∀ it ∈ items, it.title.length ≤ 500) → itemsWarnSpec ln ct cj items k = [] := by
  intro items
  induction items with
  | nil => intro k _; rfl
  | cons it rest ih =>
    intro k h
    rw [itemsWarnSpec]
    have h1 : ¬500 < it.title.length := by
      have := h it (List.mem_cons_self it rest)
      omega
    rw [if_neg h1, ih (k + 1) (fun it2 h2 => h it2 (List.mem_cons_of_mem it h2))]
    rfl

theorem checklistsWarnSpec_nil (o : Oracle) (li ci : Nat) (ln ct : String) :
    ∀ (cls : List ChecklistData) (j : Nat),
    (∀ cl ∈ cls, cl.name.length ≤ 255 ∧ ∀ it ∈ cl.items, it.title.length ≤ 500) →
    checklistsWarnSpec o li ci ln ct cls j = [] := by
  intro cls
  induction cls with
  | nil => intro j _; rfl
  | cons cl rest ih =>
    intro j h
    rw [checklistsWarnSpec]
    have h1 := h cl (List.mem_cons_self cl rest)
    have hname : ¬255 < cl.name.length := by omega
    rw [ih (j + 1) (fun cl2 h2 => h cl2 (List.mem_cons_of_mem cl h2))]
    by_cases ho : o.checklistOk li ci j
    · rw [if_pos ho, if_neg hname, itemsWarnSpec_nil ln ct j cl.items 0 h1.2]
      rfl
    · rw [if_neg ho]
      rfl

theorem cardsClWarnSpec_nil (o : Oracle) (li : Nat) (ln : String) :
    ∀ (cards : List CardData) (ci : Nat),
    (∀ c ∈ cards, ∀ cl ∈ c.checklists, cl.name.length ≤ 255
      ∧ ∀ it ∈ cl.items, it.title.length ≤ 500) →
    cardsClWarnSpec o li ln cards ci = [] := by
  intro cards
  induction cards with
  | nil => intro ci _; rfl
  | cons c rest ih =>
    intro ci h
    rw [cardsClWarnSpec, checklistsWarnSpec_nil o li ci ln c.title c.checklists 0
      (h c (List.mem_cons_self c rest)),
      ih (ci + 1) (fun c2 h2 => h c2 (List.mem_cons_of_mem c h2))]
    rfl

theorem truncWarningsFor_nil (ln : String) :
    ∀ (cards : List CardData) (i : Nat),
    (∀ c ∈ cards, c.title.length ≤ 255 ∧ c.description.length ≤ 10000) →
    truncWarningsFor ln cards i = [] := by
  intro cards
  induction cards with
  | nil => intro i _; rfl
  | cons c rest ih =>
    intro i h
    have h1 := h c (List.mem_cons_self c rest)
    rw [truncWarningsFor, if_neg (by omega), if_neg (by rintro ⟨-, hlen⟩; omega),
      ih (i + 1) (fun c2 h2 => h c2 (List.mem_cons_of_mem c h2))]
    rfl

theorem dupWarnSpec_nil (ln : String) :
    ∀ (cards : List CardData),
    (∀ c ∈ cards, (uniqueLabelsOf c).length = c.labels.length) →
    dupWarnSpec ln cards = [] := by
  intro cards
  induction cards with
  | nil => intro _; rfl
  | cons c rest ih =>
    intro h
    have h1 := h c (List.mem_cons_self c rest)
    rw [dupWarnSpec, if_neg (by omega), ih (fun c2 h2 => h c2 (List.mem_cons_of_mem c h2))]
    rfl

theorem listsWarnSpec_nil (o : Oracle) :
    ∀ (es : List ListData) (li : Nat),
    BoundsOk es →
    (∀ e ∈ es, ∀ c ∈ e.cards, (uniqueLabelsOf c).length = c.labels.length) →
    listsWarnSpec o es li = [] := by
  intro es
  induction es with
  | nil => intro li _ _; rfl
  | cons e rest ih =>
    intro li hb hd
    have hb1 := hb e (List.mem_cons_self e rest)
    rw [listsWarnSpec, listWarnSpec,
      truncWarningsFor_nil e.listName e.cards 0 (fun c h2 => ⟨(hb1 c h2).1, (hb1 c h2).2.1⟩),
      dupWarnSpec_nil e.listName e.cards (hd e (List.mem_cons_self e rest)),
      cardsClWarnSpec_nil o li e.listName e.cards 0 (fun c h2 => (hb1 c h2).2.2),
      ih (li + 1) (fun e2 h2 => hb e2 (List.mem_cons_of_mem e h2))
        (fun e2 h2 => hd e2 (List.mem_cons_of_mem e h2))]
    rfl


/-- C10 (confirmed): for a payload referencing a label name `l` carrying
leading/trailing whitespace (so that its trimmed lowercase differs from its
raw lowercase, which also must not collide with any existing board label or
other payload label), the import resolves or creates a board label under
the TRIMMED name — a label row whose lowercased name equals
`jsLower (jsTrim l)` exists afterwards — while every association row ever
written points at a label row whose lowercased name differs from `jsLower l`
(the association lookup uses the untrimmed lowercased name as key, which is
absent from the label map, so no association is created for `l`), and the
call succeeds with an empty warning list, emitting no warning about the
dropped association. -/
theorem c10_whitespace_label_resolved_trimmed_no_association (o : Oracle) (b : Nat) (u : String) (pd : Option Json) (db : DB)
    (ls : List ListData) (l : String)
    (hParse : parseAndValidate pd = Except.ok ls)
    (hio : o.importCreateOk = true)
    (hl : ∀ k, o.listCreateOk k = true)
    (hc : ∀ k, o.cardBulkOk k = true)
    (hNames : ∀ e ∈ ls, (jsTrim e.listName == "") = false)
    (hIn : ∃ e ∈ ls, ∃ c ∈ e.cards, l ∈ c.labels)
    (hTrimNe : jsTrim l ≠ "")
    (hColl : ∀ e ∈ ls, ∀ c ∈ e.cards, ∀ y ∈ c.labels, jsTrim y ≠ "" →
      jsLower (jsTrim y) ≠ jsLower l)
    (hExist : ∀ r ∈ db.labels, r.boardId = b → r.deleted = false → jsLower r.name ≠ jsLower l)
    (hBounds : BoundsOk ls)
    (hNoDup : ∀ e ∈ ls, ∀ c ∈ e.cards, (uniqueLabelsOf c).length = c.labels.length) :
    ((importCards o b u pd db).2.labels.any
        (fun r => jsLower r.name == jsLower (jsTrim l))) = true
    ∧ (∀ rel ∈ (importCards o b u pd db).2.cardLabels, rel ∈ db.cardLabels
        ∨ ∃ r ∈ (importCards o b u pd db).2.labels, r.id = rel.labelId
            ∧ jsLower r.name ≠ jsLower l)
    ∧ (importCards o b u pd db).1 = Except.ok ⟨totalCards ls, ls.length, []⟩ := by
  obtain ⟨st, hdb⟩ := importCards_db_cases o b u pd db ls hParse hio
  obtain ⟨f1, f2, f3, f4, f5, f6, f7, f8, f9⟩ := importSetup_frame b u ls db
  obtain ⟨a1, a2, a3, a4, a5⟩ :=
    processLists_any o (importSetup b u ls db).1 ls 0 (importSetup b u ls db).2
  have hlabels : (importCards o b u pd db).2.labels = (importSetup b u ls db).2.db.labels := by
    rw [hdb, (setImportStatus_frame _ _ _).2.1, a1]
  refine ⟨?_, ?_, ?_⟩
  · obtain ⟨e, he, c, hc2, hlmem⟩ := hIn
    have hcoll : jsTrim l ∈ collectLabelNames ls :=
      collectLabelNames_mem_of ls e c l he hc2 hlmem hTrimNe
    have hsome := importSetup_labelMap_covers b u ls db (jsTrim l) hcoll
    obtain ⟨v, hv⟩ := Option.isSome_iff_exists.mp hsome
    obtain ⟨r0, hr0, _, hr0k, _⟩ := importSetup_labelMap_get b u ls db (jsLower (jsTrim l)) v hv
    rw [hlabels]
    refine List.any_eq_true.mpr ⟨r0, hr0, ?_⟩
    exact beq_iff_eq.mpr hr0k
  · intro rel hr
    rw [hdb, (setImportStatus_frame _ _ _).2.2.2.1] at hr
    rcases a5 rel hr with h | ⟨e, he, c, hc2, nm, hnm, hget⟩
    · rw [f3] at h
      exact Or.inl h
    · obtain ⟨r, hrmem, hrid, hrk, hprov⟩ :=
        importSetup_labelMap_get b u ls db (jsLower nm) rel.labelId hget
      refine Or.inr ⟨r, by rw [hlabels]; exact hrmem, hrid, ?_⟩
      rcases hprov with ⟨hrdb, hrb, hrd⟩ | hrcoll
      · exact hExist r hrdb hrb hrd
      · obtain ⟨e2, he2, c2, hc3, y2, hy2, hy2t, hy2eq⟩ := collectLabelNames_mem ls r.name hrcoll
        rw [hy2eq]
        exact hColl e2 he2 c2 hc3 y2 hy2 hy2t
  · have himp : importCards o b u pd db = importValidated o b u ls db := by
      rw [importCards, hParse]
    rw [himp, importValidated]
    simp only [hio, Bool.not_true, Bool.false_eq_true, if_false]
    obtain ⟨m0, m1, m2, m3, m4, m5, m6, m7⟩ :=
      processLists_ok o (importSetup b u ls db).1 ls 0 (importSetup b u ls db).2 hNames
        (fun k _ => ⟨by rw [Nat.zero_add]; exact hl k, by rw [Nat.zero_add]; exact hc k⟩)
    have hpair : processLists o (importSetup b u ls db).1 ls 0 (importSetup b u ls db).2
        = (none, (processLists o (importSetup b u ls db).1 ls 0 (importSetup b u ls db).2).2) :=
      Prod.ext m0 rfl
    rw [hpair]
    simp only
    rw [m4, m7, f8, f9, listsWarnSpec_nil o ls 0 hBounds hNoDup]
    simp

set_option maxRecDepth 1000000 in
/-- Witness for C4 at a concrete two-list payload whose second list's card
bulk insert fails. -/
theorem c4_midway_failure_aborts_and_marks_failed_witness :
    parseAndValidate (some twoListsPayload) = Except.ok twoListsData
    ∧ (importCards failCardsAtList1 1 "u" (some twoListsPayload) DB.empty).1
        = Except.error (ImpErr.internal
            "Import failed: Failed to create cards for list \"List B\"")
    ∧ (importCards failCardsAtList1 1 "u" (some twoListsPayload) DB.empty).2.imports.map
          (fun r => r.status)
        = DB.empty.imports.map (fun r => r.status) ++ ["failed"] := by
  have h := c4_midway_failure_aborts_and_marks_failed failCardsAtList1 1 "u"
    (some twoListsPayload) DB.empty twoListsData 1 (by decide) (by decide) (by decide) rfl
    (fun k hk => by
      have hk0 : k = 0 := by omega
      subst hk0
      exact ⟨rfl, rfl⟩)
    rfl rfl (by decide) (by decide)
  exact ⟨by decide, h.1, h.2.2.1⟩

set_option maxRecDepth 1000000 in
/-- Witness for C6 at a concrete payload naming a list with zero cards on an
empty board. -/
theorem c6_empty_list_entries_create_no_lists_witness :
    parseAndValidate (some emptyListPayload) = Except.ok [⟨"Todo", []⟩]
    ∧ ∀ r ∈ (importCards Oracle.allOk 1 "u" (some emptyListPayload) DB.empty).2.lists,
        r ∈ DB.empty.lists
        ∨ ∃ e ∈ [(⟨"Todo", []⟩ : ListData)], e.cards ≠ [] ∧ r.name = e.listName ∧ r.boardId = 1 :=
  ⟨by decide, c6_empty_list_entries_create_no_lists Oracle.allOk 1 "u"
    (some emptyListPayload) DB.empty [⟨"Todo", []⟩] (by decide)⟩

set_option maxRecDepth 1000000 in
/-- Witness for C7: importing a list "to do" with a card labelled "Bug" into
a board already holding the list "TO DO" and the label "bug". -/
theorem c7_case_insensitive_reuse_of_lists_and_labels_witness :
    parseAndValidate (some reusePayload) = Except.ok [⟨"to do", [⟨"Card 1", "", ["Bug"], []⟩]⟩]
    ∧ ((∀ r ∈ (importCards Oracle.allOk 1 "u" (some reusePayload) boardWithExisting).2.lists,
          r ∈ boardWithExisting.lists ∨ jsLower r.name ≠ jsLower "to do")
      ∧ (∀ r ∈ boardWithExisting.lists,
          r ∈ (importCards Oracle.allOk 1 "u" (some reusePayload) boardWithExisting).2.lists)
      ∧ (∀ r ∈ (importCards Oracle.allOk 1 "u" (some reusePayload) boardWithExisting).2.labels,
          r ∈ boardWithExisting.labels ∨ jsLower r.name ≠ jsLower "Bug")
      ∧ (∀ r ∈ boardWithExisting.labels,
          r ∈ (importCards Oracle.allOk 1 "u" (some reusePayload) boardWithExisting).2.labels)
      ∧ (∀ rel ∈ (importCards Oracle.allOk 1 "u" (some reusePayload) boardWithExisting).2.cardLabels,
          rel ∈ boardWithExisting.cardLabels
          ∨ ∃ r ∈ (importCards Oracle.allOk 1 "u" (some reusePayload) boardWithExisting).2.labels,
              r.id = rel.labelId ∧ (jsLower r.name = jsLower "Bug" → r ∈ boardWithExisting.labels))) :=
  ⟨by decide, c7_case_insensitive_reuse_of_lists_and_labels Oracle.allOk 1 "u"
    (some reusePayload) boardWithExisting [⟨"to do", [⟨"Card 1", "", ["Bug"], []⟩]⟩]
    "to do" "Bug" (by decide) rfl (by decide) (by decide)⟩

set_option maxRecDepth 1000000 in
/-- Witness for C8 at a two-card payload imported into an empty board. -/
theorem c8_card_index_is_payload_position_witness :
    parseAndValidate (some twoCardsPayload)
      = Except.ok [⟨"List A", [⟨"first", "", [], []⟩, ⟨"second", "", [], []⟩]⟩]
    ∧ ∀ r ∈ (importCards Oracle.allOk 1 "u" (some twoCardsPayload) DB.empty).2.cards,
        r ∈ DB.empty.cards
        ∨ ∃ e ∈ [(⟨"List A", [⟨"first", "", [], []⟩, ⟨"second", "", [], []⟩]⟩ : ListData)],
            ∃ k c, e.cards.get? k = some c ∧ r.index = k
              ∧ r.title = jsTake c.title 255 ∧ r.description = jsTake c.description 10000 :=
  ⟨by decide, c8_card_index_is_payload_position Oracle.allOk 1 "u"
    (some twoCardsPayload) DB.empty
    [⟨"List A", [⟨"first", "", [], []⟩, ⟨"second", "", [], []⟩]⟩] (by decide)⟩

set_option maxRecDepth 1000000 in
/-- Witness for C9: the first of two checklists fails to create; the import
still succeeds, both cards' rows and the second checklist are written. -/
theorem c9_checklist_failures_skipped_import_succeeds_witness :
    parseAndValidate (some twoChecklistsPayload) = Except.ok twoChecklistsData
    ∧ ((importCards failFirstChecklist 1 "u" (some twoChecklistsPayload) DB.empty).1
        = Except.ok ⟨totalCards twoChecklistsData, twoChecklistsData.length,
            listsWarnSpec failFirstChecklist twoChecklistsData 0⟩
      ∧ (importCards failFirstChecklist 1 "u" (some twoChecklistsPayload) DB.empty).2.imports.map
            (fun r => r.status)
          = DB.empty.imports.map (fun r => r.status) ++ ["success"]
      ∧ (importCards failFirstChecklist 1 "u" (some twoChecklistsPayload) DB.empty).2.cards.length
          = DB.empty.cards.length + totalCards twoChecklistsData
      ∧ (importCards failFirstChecklist 1 "u" (some twoChecklistsPayload) DB.empty).2.checklists.length
          = DB.empty.checklists.length + listsClOkCount failFirstChecklist twoChecklistsData 0
      ∧ (importCards failFirstChecklist 1 "u" (some twoChecklistsPayload) DB.empty).2.checklistItems.length
          = DB.empty.checklistItems.length + listsItemCount failFirstChecklist twoChecklistsData 0) :=
  ⟨by decide, c9_checklist_failures_skipped_import_succeeds failFirstChecklist 1 "u"
    (some twoChecklistsPayload) DB.empty twoChecklistsData (by decide) (by decide) rfl
    (fun _ => rfl) (fun _ => rfl) (by decide)⟩

set_option maxRecDepth 1000000 in
/-- Witness for C10 at a payload whose only card carries the label " Bug"
with a leading space, imported into an empty board. -/
theorem c10_whitespace_label_resolved_trimmed_no_association_witness :
    parseAndValidate (some wsLabelPayload) = Except.ok wsLabelData
    ∧ (((importCards Oracle.allOk 1 "u" (some wsLabelPayload) DB.empty).2.labels.any
          (fun r => jsLower r.name == jsLower (jsTrim " Bug"))) = true
      ∧ (∀ rel ∈ (importCards Oracle.allOk 1 "u" (some wsLabelPayload) DB.empty).2.cardLabels,
          rel ∈ DB.empty.cardLabels
          ∨ ∃ r ∈ (importCards Oracle.allOk 1 "u" (some wsLabelPayload) DB.empty).2.labels,
              r.id = rel.labelId ∧ jsLower r.name ≠ jsLower " Bug")
      ∧ (importCards Oracle.allOk 1 "u" (some wsLabelPayload) DB.empty).1
          = Except.ok ⟨totalCards wsLabelData, wsLabelData.length, []⟩) :=
  ⟨by decide, c10_whitespace_label_resolved_trimmed_no_association Oracle.allOk 1 "u"
    (some wsLabelPayload) DB.empty wsLabelData " Bug" (by decide) rfl (fun _ => rfl)
    (fun _ => rfl) (by decide) (by decide) (by decide) (by decide) (by decide)
    (by unfold BoundsOk; decide) (by decide)⟩

end Kan
